import Mathlib

set_option maxHeartbeats 1000000

namespace RulesCli

/-- JSON values: the runtime data model of the TypeScript code under
verification.  Objects keep their fields in insertion order, as JavaScript
objects do.  JavaScript numbers are modelled as integers: the repository only
builds and transports integral numeric values, and IEEE-754 float printing is
out of scope of the shallow embedding. -/
inductive Json : Type where
  | null : Json
  | bool (b : Bool) : Json
  | num (n : Int) : Json
  | str (s : String) : Json
  | arr (elems : List Json) : Json
  | obj (fields : List (String × Json)) : Json
  deriving Repr, Inhabited

/-- Property access `x.k` of JavaScript, for the values that occur here:
field of an object, `undefined` (`none`) on everything else. -/
def getField : Json → String → Option Json
  | .obj fs, k => fs.lookup k
  | _, _ => none

/-- JavaScript truthiness of a JSON value. -/
def jsTruthy : Json → Bool
  | .null => false
  | .bool b => b
  | .num n => n != 0
  | .str s => s != ""
  | .arr _ => true
  | .obj _ => true

/-- The combined guard `x && typeof x === 'object'` used throughout the
source: true exactly for arrays and objects (`null` is excluded by
truthiness even though its `typeof` is `'object'`). -/
def isObjectLike : Json → Bool
  | .arr _ => true
  | .obj _ => true
  | _ => false

/-- Field access guarded by truthiness: the `if (x.k)` pattern of the
source.  Returns the field only when it is present and truthy. -/
def getTruthyField (j : Json) (k : String) : Option Json :=
  match getField j k with
  | some v => if jsTruthy v then some v else none
  | none => none

/-- Key-presence test, the JavaScript `'k' in x` operator on objects. -/
def hasKey : Json → String → Bool
  | .obj fs, k => fs.any (fun kv => kv.1 == k)
  | _, _ => false

-- ===========================================================================
-- Decimal and string printing, shared by `JSON.stringify` and by template
-- literal interpolation.
-- ===========================================================================

def digitChar (n : Nat) : Char := Char.ofNat (48 + n)

def hexDigitChar (n : Nat) : Char :=
  if n < 10 then Char.ofNat (48 + n) else Char.ofNat (87 + n)

/-- Decimal digits, fuel-indexed so that the kernel can evaluate it; the
fuel only needs to cover the number of digits. -/
def printNatAux : Nat → Nat → List Char
  | 0, _ => []
  | fuel + 1, n =>
    if n < 10 then [digitChar n]
    else printNatAux fuel (n / 10) ++ [digitChar (n % 10)]

/-- Decimal digits of a natural number, most significant first. -/
def printNat (n : Nat) : List Char := printNatAux (n + 1) n

/-- Decimal form of an integer, as JavaScript prints integral numbers. -/
def printInt (n : Int) : List Char :=
  if n < 0 then '-' :: printNat n.natAbs else printNat n.natAbs

/-- The brace characters, named once. -/
def lbrace : Char := Char.ofNat 123

def rbrace : Char := Char.ofNat 125

/-- Escaping of a single character inside a JSON string literal, exactly the
escapes `JSON.stringify` produces: quote, backslash, the short control
escapes, `\u00xx` for the remaining control characters, and everything else
verbatim. -/
def escChar (c : Char) : List Char :=
  if c = '"' then ['\\', '"']
  else if c = '\\' then ['\\', '\\']
  else if c = '\n' then ['\\', 'n']
  else if c = '\r' then ['\\', 'r']
  else if c = '\t' then ['\\', 't']
  else if c = Char.ofNat 8 then ['\\', 'b']
  else if c = Char.ofNat 12 then ['\\', 'f']
  else if c.toNat < 32 then
    ['\\', 'u', '0', '0', hexDigitChar (c.toNat / 16), hexDigitChar (c.toNat % 16)]
  else [c]

def escList : List Char → List Char
  | [] => []
  | c :: cs => escChar c ++ escList cs

mutual

/-- `JSON.stringify` (no indentation), producing the character list of the
canonical serialization. -/
def printChars : Json → List Char
  | .bool false => ['f', 'a', 'l', 's', 'e']
  | .bool true => ['t', 'r', 'u', 'e']
  | .null => ['n', 'u', 'l', 'l']
  | .str s => '"' :: (escList s.data ++ ['"'])
  | .num n => printInt n
  | .obj fs => lbrace :: (printFields fs ++ [rbrace])
  | .arr xs => '[' :: (printElems xs ++ [']'])

def printElems : List Json → List Char
  | [] => []
  | [x] => printChars x
  | x :: y :: xs => printChars x ++ ',' :: printElems (y :: xs)

def printFields : List (String × Json) → List Char
  | [] => []
  | [(k, v)] => '"' :: (escList k.data ++ '"' :: ':' :: printChars v)
  | (k, v) :: f :: fs =>
      ('"' :: (escList k.data ++ '"' :: ':' :: printChars v)) ++ ',' :: printFields (f :: fs)

end

/-- `JSON.stringify` as a string. -/
def stringify (v : Json) : String := String.mk (printChars v)

/-- JavaScript `String.prototype.length`: the number of UTF-16 code units. -/
def jsLength (s : String) : Nat :=
  (s.data.map (fun c => if c.toNat < 65536 then 1 else 2)).sum

/-- The UTF-8 byte length of a string, following the spec's words
`byte length of the canonical JSON serialization`. -/
def utf8ByteLen (s : String) : Nat :=
  (s.data.map (fun c =>
    if c.toNat < 128 then 1
    else if c.toNat < 2048 then 2
    else if c.toNat < 65536 then 3
    else 4)).sum

mutual

/-- JavaScript string conversion (template-literal interpolation) of a JSON
value: `String(v)`. -/
def jsDisplay : Json → String
  | .null => "null"
  | .bool true => "true"
  | .bool false => "false"
  | .num n => String.mk (printInt n)
  | .str s => s
  | .arr xs => jsDisplayList xs
  | .obj _ => "[object Object]"

def jsDisplayList : List Json → String
  | [] => ""
  | [.null] => ""
  | [x] => jsDisplay x
  | .null :: y :: r => "," ++ jsDisplayList (y :: r)
  | x :: y :: r => jsDisplay x ++ "," ++ jsDisplayList (y :: r)

end

/-- Interpolation of a possibly-absent field (`undefined` prints as the word
`undefined`). -/
def jsDisplayOpt : Option Json → String
  | none => "undefined"
  | some v => jsDisplay v

-- ===========================================================================
-- Configuration data model (src/v2/config/types.ts), restricted to the
-- fields the core functions read.
-- ===========================================================================

structure PropertyDefinition where
  id : String
  type : String
  deriving Repr, DecidableEq

structure ObjectTypeConfig where
  id : String
  properties : List PropertyDefinition
  deriving Repr, DecidableEq

structure OutputConfig where
  id : String
  version : String
  deriving Repr, DecidableEq

structure WorkflowDefinition where
  name : String
  workflowRid : String
  objectType : ObjectTypeConfig
  output : OutputConfig
  deriving Repr, DecidableEq

structure ValidationConfig where
  grammarVersion : String
  supportedStrategyTypes : List String
  supportedStringFilters : List String
  unsupportedStringFilters : List String
  supportedNumericFilters : List String
  supportedNullFilters : List String
  deriving Repr, DecidableEq

/-- The resolved configuration, restricted to the parts
`performFullValidation` reads. -/
structure ResolvedConfig where
  workflow : WorkflowDefinition
  validation : ValidationConfig
  deriving Repr, DecidableEq

-- ===========================================================================
-- Template builder (src/src/v2/templates/loader.ts).
-- Parameters flow in as JSON values; the TypeScript `as` casts are erased at
-- runtime, so parameter-derived arguments keep type `Json` here.
-- ===========================================================================

def defaultMacro : Json :=
  .obj [("function", .str "VALUE"), ("inputType", .str "ALL_TYPES"),
        ("outputType", .str "ALL_TYPES")]

def buildStringEqualsFilter (objectTypeId : String)
    (propertyId value caseSensitive : Json) : Json :=
  .obj [("columnFilterRule", .obj [
          ("column", .obj [
            ("objectProperty", .obj [("objectTypeId", .str objectTypeId),
                                     ("propertyTypeId", propertyId)]),
            ("type", .str "objectProperty")]),
          ("filter", .obj [
            ("stringColumnFilter", .obj [
              ("type", .str "EQUALS"),
              ("caseSensitive", caseSensitive),
              ("ignoreWhitespace", .bool false),
              ("values", .arr [value]),
              ("macro", defaultMacro)]),
            ("type", .str "stringColumnFilter")])]),
        ("type", .str "columnFilterRule")]

def buildStringOrFilter (objectTypeId : String) (propertyId : Json)
    (values : List Json) (caseSensitive : Json) : Json :=
  .obj [("orFilterRule", .obj [
          ("filters", .arr (values.map (fun value =>
            buildStringEqualsFilter objectTypeId propertyId value caseSensitive)))]),
        ("type", .str "orFilterRule")]

def buildNumericFilter (objectTypeId : String) (propertyId : Json)
    (comparison : String) (value : Json) : Json :=
  .obj [("columnFilterRule", .obj [
          ("column", .obj [
            ("objectProperty", .obj [("objectTypeId", .str objectTypeId),
                                     ("propertyTypeId", propertyId)]),
            ("type", .str "objectProperty")]),
          ("filter", .obj [
            ("numericColumnFilter", .obj [
              ("type", .str comparison),
              ("values", .arr [value]),
              ("macro", defaultMacro)]),
            ("type", .str "numericColumnFilter")])]),
        ("type", .str "columnFilterRule")]

/-- `buildNumericRangeFilter`: collects a lower-bound filter when `min` is
defined and an upper-bound filter when `max` is defined; throws with no
bound, returns the single filter unwrapped with one bound, and wraps both in
an `andFilterRule` with two bounds.  The `throw` is modelled as
`Except.error`. -/
def buildNumericRangeFilter (objectTypeId : String) (propertyId : Json)
    (min? max? : Option Json) : Except String Json :=
  let filters : List Json :=
    (match min? with
     | some minV => [buildNumericFilter objectTypeId propertyId "GREATER_THAN_OR_EQUAL" minV]
     | none => []) ++
    (match max? with
     | some maxV => [buildNumericFilter objectTypeId propertyId "LESS_THAN_OR_EQUAL" maxV]
     | none => [])
  match filters with
  | [] => .error "Numeric range filter requires at least min or max"
  | [f] => .ok f
  | fs => .ok (.obj [("andFilterRule", .obj [("filters", .arr fs)]),
                     ("type", .str "andFilterRule")])

def buildNullFilter (objectTypeId : String) (propertyId isNull : Json) : Json :=
  .obj [("columnFilterRule", .obj [
          ("column", .obj [
            ("objectProperty", .obj [("objectTypeId", .str objectTypeId),
                                     ("propertyTypeId", propertyId)]),
            ("type", .str "objectProperty")]),
          ("filter", .obj [
            ("nullColumnFilter", .obj [
              ("type", .str (if jsTruthy isNull then "NULL" else "NOT_NULL"))]),
            ("type", .str "nullColumnFilter")])]),
        ("type", .str "columnFilterRule")]

def wrapFilterAsRuleLogic (filter : Json) (workflow : WorkflowDefinition) : Json :=
  .obj [("namedStrategies", .obj []),
        ("strategyComponents", .null),
        ("grammarVersion", .str "V1"),
        ("strategy", .obj [
          ("filterNode", .obj [
            ("nodeInput", .obj [
              ("source", .obj [("objectTypeId", .str workflow.objectType.id),
                               ("type", .str "objectTypeId")]),
              ("type", .str "source")]),
            ("filter", filter),
            ("joinFilterInputs", .obj [])]),
          ("type", .str "filterNode")]),
        ("workflowRid", .str workflow.workflowRid),
        ("effect", .obj [
          ("v2", .obj [
            ("outputAndVersion", .obj [
              ("outputId", .str workflow.output.id),
              ("outputVersion", .str workflow.output.version),
              ("workflowRid", .str workflow.workflowRid)]),
            ("parameterValues", .obj [])]),
          ("type", .str "v2")])]

structure BuildResult where
  success : Bool
  logic : Option Json
  errors : Option (List String)
  deriving Repr

/-- The `params` record of `buildFromTemplate`: a JavaScript object. -/
abbrev Params := List (String × Json)

def pGet (params : Params) (k : String) : Option Json := params.lookup k

/-- The `if (!params.k)` presence test: absent or falsy counts as missing. -/
def isMissingParam (params : Params) (k : String) : Bool :=
  match pGet params k with
  | none => true
  | some v => ! jsTruthy v

/-- The `(x as τ) ?? d` pattern: nullish values fall back to the default. -/
def withDefault (v? : Option Json) (d : Json) : Json :=
  match v? with
  | none => d
  | some .null => d
  | some v => v

/-- `buildFromTemplate` (src/src/v2/templates/loader.ts, lines 294-381):
validates the parameters of the named template, accumulating the errors of
all missing parameters, and builds the wrapped rule logic only when no
errors were collected.  The `try/catch` around the body is modelled by
propagating `buildNumericRangeFilter`'s error value. -/
def buildFromTemplate (templateName : String) (params : Params)
    (workflow : WorkflowDefinition) : BuildResult :=
  let objectTypeId := workflow.objectType.id
  match templateName with
  | "string-equals" =>
    let errors :=
      (if isMissingParam params "propertyId" then ["Missing required parameter: propertyId"] else []) ++
      (if isMissingParam params "value" then ["Missing required parameter: value"] else [])
    if errors.isEmpty then
      let filter := buildStringEqualsFilter objectTypeId
        ((pGet params "propertyId").getD .null)
        ((pGet params "value").getD .null)
        (withDefault (pGet params "caseSensitive") (.bool false))
      { success := true, logic := some (wrapFilterAsRuleLogic filter workflow), errors := none }
    else { success := false, logic := none, errors := some errors }
  | "string-or" =>
    let valuesBad : Bool :=
      match pGet params "values" with
      | some (.arr (_ :: _)) => false
      | _ => true
    let errors :=
      (if isMissingParam params "propertyId" then ["Missing required parameter: propertyId"] else []) ++
      (if valuesBad then ["Missing or empty required parameter: values"] else [])
    if errors.isEmpty then
      let values : List Json :=
        match pGet params "values" with
        | some (.arr vs) => vs
        | _ => []
      let filter := buildStringOrFilter objectTypeId
        ((pGet params "propertyId").getD .null) values
        (withDefault (pGet params "caseSensitive") (.bool false))
      { success := true, logic := some (wrapFilterAsRuleLogic filter workflow), errors := none }
    else { success := false, logic := none, errors := some errors }
  | "numeric-range" =>
    let min? := pGet params "min"
    let max? := pGet params "max"
    let errors :=
      (if isMissingParam params "propertyId" then ["Missing required parameter: propertyId"] else []) ++
      (if min?.isNone && max?.isNone then ["At least one of min or max is required"] else [])
    if errors.isEmpty then
      match buildNumericRangeFilter objectTypeId ((pGet params "propertyId").getD .null) min? max? with
      | .ok filter =>
        { success := true, logic := some (wrapFilterAsRuleLogic filter workflow), errors := none }
      | .error msg => { success := false, logic := none, errors := some [msg] }
    else { success := false, logic := none, errors := some errors }
  | "null-check" =>
    let errors :=
      if isMissingParam params "propertyId" then ["Missing required parameter: propertyId"] else []
    if errors.isEmpty then
      let filter := buildNullFilter objectTypeId
        ((pGet params "propertyId").getD .null)
        (withDefault (pGet params "isNull") (.bool true))
      { success := true, logic := some (wrapFilterAsRuleLogic filter workflow), errors := none }
    else { success := false, logic := none, errors := some errors }
  | _ => { success := false, logic := none, errors := some ["Unknown template: " ++ templateName] }

/-- The workflow fixture of the repository's template tests. -/
def sampleWorkflow : WorkflowDefinition :=
  { name := "Test Workflow"
  , workflowRid := "ri.taurus.main.workflow.test-123"
  , objectType :=
    { id := "test.object-type"
    , properties :=
      [ { id := "name", type := "string" }
      , { id := "price", type := "number" }
      , { id := "status", type := "string" } ] }
  , output := { id := "output-123", version := "1.0.0" } }

/-- `buildFromTemplate` never partially constructs: a failing result carries
no logic and a successful one carries no errors. -/
theorem bft_all_or_nothing (name : String) (params : Params) (wf : WorkflowDefinition) :
    ((buildFromTemplate name params wf).success = false → (buildFromTemplate name params wf).logic = none)
  ∧ ((buildFromTemplate name params wf).success = true → (buildFromTemplate name params wf).errors = none) := by
  unfold buildFromTemplate
  split
  · split_ifs <;> simp
  · by_cases hp : isMissingParam params "propertyId" = true <;>
      by_cases hv : (match pGet params "values" with
        | some (Json.arr (_ :: _)) => false
        | _ => true) = true <;>
      (try simp [hp, hv]) <;> simp
  · by_cases hp : isMissingParam params "propertyId" = true <;>
      by_cases hb : ((pGet params "min").isNone && (pGet params "max").isNone) = true <;>
      (try simp [hp, hb]) <;> (try split) <;> simp
  · split_ifs <;> simp
  · simp

/-- Claim C2: a numeric-range filter with only `min` is the single
GREATER_THAN_OR_EQUAL column filter and with only `max` the single
LESS_THAN_OR_EQUAL column filter — a `columnFilterRule` leaf, not a
compound node — while both bounds produce an `andFilterRule` with exactly
the two bound filters as children, lower bound first. -/
theorem buildNumericRangeFilter_shapes (objectTypeId : String)
    (propertyId minV maxV : Json) :
    buildNumericRangeFilter objectTypeId propertyId (some minV) none =
      .ok (buildNumericFilter objectTypeId propertyId "GREATER_THAN_OR_EQUAL" minV)
  ∧ buildNumericRangeFilter objectTypeId propertyId none (some maxV) =
      .ok (buildNumericFilter objectTypeId propertyId "LESS_THAN_OR_EQUAL" maxV)
  ∧ getField (buildNumericFilter objectTypeId propertyId "GREATER_THAN_OR_EQUAL" minV) "type"
      = some (.str "columnFilterRule")
  ∧ getField (buildNumericFilter objectTypeId propertyId "GREATER_THAN_OR_EQUAL" minV) "andFilterRule"
      = none
  ∧ getField (buildNumericFilter objectTypeId propertyId "LESS_THAN_OR_EQUAL" maxV) "type"
      = some (.str "columnFilterRule")
  ∧ getField (buildNumericFilter objectTypeId propertyId "LESS_THAN_OR_EQUAL" maxV) "andFilterRule"
      = none
  ∧ buildNumericRangeFilter objectTypeId propertyId (some minV) (some maxV) =
      .ok (.obj [("andFilterRule", .obj [("filters", .arr
            [buildNumericFilter objectTypeId propertyId "GREATER_THAN_OR_EQUAL" minV,
             buildNumericFilter objectTypeId propertyId "LESS_THAN_OR_EQUAL" maxV])]),
           ("type", .str "andFilterRule")]) :=
  ⟨rfl, rfl, rfl, rfl, rfl, rfl, rfl⟩

/-- Claim C3 (amended): `buildFromTemplate` checks the presence of every
required parameter first and accumulates all missing-parameter errors; the
scalar parameters `propertyId` and `value` report exactly
`Missing required parameter: <name>`, while string-or's array parameter
reports `Missing or empty required parameter: values` and numeric-range's
bound requirement reports `At least one of min or max is required`;
construction is attempted only once zero errors are present (`success:false`
with no logic otherwise); omitting only `propertyId` from `string-equals`
yields exactly `Missing required parameter: propertyId`. -/
theorem buildFromTemplate_param_validation (params : Params)
    (workflow : WorkflowDefinition) :
    (isMissingParam params "propertyId" = true → isMissingParam params "value" = true →
      buildFromTemplate "string-equals" params workflow =
        { success := false, logic := none,
          errors := some ["Missing required parameter: propertyId",
                          "Missing required parameter: value"] })
  ∧ (isMissingParam params "propertyId" = true → pGet params "values" = none →
      buildFromTemplate "string-or" params workflow =
        { success := false, logic := none,
          errors := some ["Missing required parameter: propertyId",
                          "Missing or empty required parameter: values"] })
  ∧ (isMissingParam params "propertyId" = true → pGet params "min" = none →
      pGet params "max" = none →
      buildFromTemplate "numeric-range" params workflow =
        { success := false, logic := none,
          errors := some ["Missing required parameter: propertyId",
                          "At least one of min or max is required"] })
  ∧ (isMissingParam params "propertyId" = true →
      buildFromTemplate "null-check" params workflow =
        { success := false, logic := none,
          errors := some ["Missing required parameter: propertyId"] })
  ∧ (∀ name : String, (buildFromTemplate name params workflow).success = false →
      (buildFromTemplate name params workflow).logic = none)
  ∧ (∀ name : String, (buildFromTemplate name params workflow).success = true →
      (buildFromTemplate name params workflow).errors = none)
  ∧ buildFromTemplate "string-equals" [("value", .str "test")] workflow =
      { success := false, logic := none,
        errors := some ["Missing required parameter: propertyId"] } := by
  refine ⟨?_, ?_, ?_, ?_, ?_, ?_, rfl⟩
  · intro h1 h2
    simp [buildFromTemplate, h1, h2]
  · intro h1 h2
    simp [buildFromTemplate, h1, h2]
  · intro h1 h2 h3
    simp [buildFromTemplate, h1, h2, h3]
  · intro h1
    simp [buildFromTemplate, h1]
  · intro name h
    exact (bft_all_or_nothing name params workflow).1 h
  · intro name h
    exact (bft_all_or_nothing name params workflow).2 h

/-- Witness for claim C3's theorem: string-equals with no parameters at all
accumulates both missing-parameter errors, in order. -/
theorem buildFromTemplate_param_validation_witness :
    buildFromTemplate "string-equals" [] sampleWorkflow =
      { success := false, logic := none,
        errors := some ["Missing required parameter: propertyId",
                        "Missing required parameter: value"] } :=
  (buildFromTemplate_param_validation [] sampleWorkflow).1 rfl rfl

/-- Counterexample to claim C3 as stated: the missing required parameter
`values` of `string-or` is reported as
`Missing or empty required parameter: values`, which is not of the claimed
exact shape `Missing required parameter: values`. -/
theorem stringOr_missing_values_message_shape :
    buildFromTemplate "string-or" [("propertyId", Json.str "status")] sampleWorkflow =
      { success := false, logic := none,
        errors := some ["Missing or empty required parameter: values"] }
  ∧ "Missing or empty required parameter: values" ≠ "Missing required parameter: values" := by
  exact ⟨rfl, by decide⟩

/-- Claim C9 (amended): a `values` parameter that is absent and a `values`
parameter that is present but an empty array both fail, and both produce the
same single error string `Missing or empty required parameter: values`. -/
theorem stringOr_values_error_message (params : Params)
    (workflow : WorkflowDefinition)
    (hpid : isMissingParam params "propertyId" = false) :
    (pGet params "values" = none →
      buildFromTemplate "string-or" params workflow =
        { success := false, logic := none,
          errors := some ["Missing or empty required parameter: values"] })
  ∧ (pGet params "values" = some (.arr []) →
      buildFromTemplate "string-or" params workflow =
        { success := false, logic := none,
          errors := some ["Missing or empty required parameter: values"] }) := by
  constructor
  · intro h
    simp [buildFromTemplate, hpid, h]
  · intro h
    simp [buildFromTemplate, hpid, h]

/-- Witness for claim C9's theorem, at the concrete parameter records. -/
theorem stringOr_values_error_message_witness :
    buildFromTemplate "string-or" [("propertyId", Json.str "status")] sampleWorkflow =
      { success := false, logic := none,
        errors := some ["Missing or empty required parameter: values"] }
  ∧ buildFromTemplate "string-or"
      [("propertyId", Json.str "status"), ("values", Json.arr [])] sampleWorkflow =
      { success := false, logic := none,
        errors := some ["Missing or empty required parameter: values"] } :=
  ⟨(stringOr_values_error_message [("propertyId", Json.str "status")] sampleWorkflow rfl).1 rfl,
   (stringOr_values_error_message [("propertyId", Json.str "status"), ("values", Json.arr [])]
      sampleWorkflow rfl).2 rfl⟩

/-- Counterexample to claim C9 as stated: `values` missing entirely and
`values` present but empty produce identical results — the error strings are
not distinct. -/
theorem stringOr_empty_equals_missing :
    buildFromTemplate "string-or" [("propertyId", Json.str "status")] sampleWorkflow =
    buildFromTemplate "string-or"
      [("propertyId", Json.str "status"), ("values", Json.arr [])] sampleWorkflow := rfl

-- ===========================================================================
-- Size lemmas supporting the recursive tree walks.
-- ===========================================================================

theorem mem_of_lookup_eq_some {k : String} {v : Json} :
    ∀ {l : List (String × Json)}, l.lookup k = some v → (k, v) ∈ l := by
  intro l h
  induction l with
  | nil => simp [List.lookup] at h
  | cons p rest ih =>
    obtain ⟨a, b⟩ := p
    rw [List.lookup] at h
    cases hk : (k == a) with
    | false => rw [hk] at h; exact List.mem_cons_of_mem _ (ih h)
    | true =>
      rw [hk] at h
      cases h
      have hka : k = a := by simpa using hk
      subst hka
      exact List.mem_cons_self _ _

theorem sizeOf_lt_of_getField {j : Json} {k : String} {v : Json}
    (h : getField j k = some v) : sizeOf v < sizeOf j := by
  cases j <;> simp [getField] at h
  case obj fs =>
    have hm := mem_of_lookup_eq_some h
    have h1 : sizeOf (k, v) < sizeOf fs := List.sizeOf_lt_of_mem hm
    simp at h1
    simp
    omega

theorem sizeOf_lt_of_getTruthyField {j : Json} {k : String} {v : Json}
    (h : getTruthyField j k = some v) : sizeOf v < sizeOf j := by
  unfold getTruthyField at h
  cases hg : getField j k with
  | none => rw [hg] at h; cases h
  | some w =>
    rw [hg] at h
    dsimp only at h
    split_ifs at h
    · cases h
      exact sizeOf_lt_of_getField hg

-- ===========================================================================
-- JavaScript `Set` of strings: insertion-ordered, duplicate-free list.
-- ===========================================================================

def insertUnique (acc : List String) (x : String) : List String :=
  if x ∈ acc then acc else acc ++ [x]

def insertMany (acc : List String) (l : List String) : List String :=
  l.foldl insertUnique acc

-- ===========================================================================
-- Property extraction (src/v2/validation/properties.ts).
-- Property ids flow through the TypeScript `as string` cast; the model
-- collects string-valued ids, the declared type of the field.
-- ===========================================================================

/-- The inline `rule.column → column?.objectProperty → objProp?.propertyTypeId`
chain of `extractPropertiesFromFilter`. -/
def columnRulePropId (rule : Json) : Option String :=
  match getField rule "column" with
  | some column =>
    match getField column "objectProperty" with
    | some objProp =>
      match getField objProp "propertyTypeId" with
      | some (.str s) => if s ≠ "" then some s else none
      | _ => none
    | none => none
  | none => none

/-- `extractPropertyFromColumn`: guards non-objects, then follows
`objectProperty.propertyTypeId`, returning `null` for falsy values. -/
def extractPropertyFromColumn (column : Json) : Option String :=
  if isObjectLike column then
    match getField column "objectProperty" with
    | some objProp =>
      match getField objProp "propertyTypeId" with
      | some (.str s) => if s ≠ "" then some s else none
      | _ => none
    | none => none
  else none

/-- The `columnFilterRule` block of `extractPropertiesFromFilter`. -/
def columnFilterPart (filter : Json) : List String :=
  match getTruthyField filter "columnFilterRule" with
  | some rule =>
    match columnRulePropId rule with
    | some pid => insertUnique [] pid
    | none => []
  | none => []

mutual

/-- `extractPropertiesFromFilter`: collects the distinct property ids of
every `columnFilterRule` in the tree, recursing uniformly through
`orFilterRule`, `andFilterRule` and `notFilterRule` (the source's four
sequential blocks appear here as the four part functions), and degrading to
the empty set on every malformed subtree. -/
def extractPropertiesFromFilter (filter : Json) : List String :=
  if isObjectLike filter then
    notFilterPart filter (andFilterPart filter (orFilterPart filter (columnFilterPart filter)))
  else []
  termination_by (sizeOf filter, 3)

/-- The `orFilterRule` block: recurse into each sub-filter of `filters`. -/
def orFilterPart (filter : Json) (acc : List String) : List String :=
  match hor : getTruthyField filter "orFilterRule" with
  | some rule =>
    match hof : getField rule "filters" with
    | some (.arr subs) => extractPropsFromList subs acc
    | _ => acc
  | none => acc
  termination_by (sizeOf filter, 0)
  decreasing_by
  · have h1 := sizeOf_lt_of_getTruthyField hor
    have h2 := sizeOf_lt_of_getField hof
    simp only [Json.arr.sizeOf_spec] at h2
    exact Prod.Lex.left _ _ (by omega)

/-- The `andFilterRule` block: recurse into each sub-filter of `filters`. -/
def andFilterPart (filter : Json) (acc : List String) : List String :=
  match han : getTruthyField filter "andFilterRule" with
  | some rule =>
    match haf : getField rule "filters" with
    | some (.arr subs) => extractPropsFromList subs acc
    | _ => acc
  | none => acc
  termination_by (sizeOf filter, 1)
  decreasing_by
  · have h1 := sizeOf_lt_of_getTruthyField han
    have h2 := sizeOf_lt_of_getField haf
    simp only [Json.arr.sizeOf_spec] at h2
    exact Prod.Lex.left _ _ (by omega)

/-- The `notFilterRule` block: recurse into the inner `filter`. -/
def notFilterPart (filter : Json) (acc : List String) : List String :=
  match hno : getTruthyField filter "notFilterRule" with
  | some rule =>
    match hnf : getField rule "filter" with
    | some inner => insertMany acc (extractPropertiesFromFilter inner)
    | none => acc
  | none => acc
  termination_by (sizeOf filter, 2)
  decreasing_by
  · have h1 := sizeOf_lt_of_getTruthyField hno
    have h2 := sizeOf_lt_of_getField hnf
    exact Prod.Lex.left _ _ (by omega)

def extractPropsFromList (subs : List Json) (acc : List String) : List String :=
  match subs with
  | [] => acc
  | x :: rest => extractPropsFromList rest (insertMany acc (extractPropertiesFromFilter x))
  termination_by (sizeOf subs, 2)
  decreasing_by
  all_goals exact Prod.Lex.left _ _ (by simp only [List.cons.sizeOf_spec]; omega)

end

/-- `extractPropertiesFromWindowNode`: property ids of `columnsToAdd`
(through `columnDefinition.column`) and of `partitionBy`. -/
def extractPropertiesFromWindowNode (node : Json) : List String :=
  if isObjectLike node then
    let s1 : List String :=
      match getField node "columnsToAdd" with
      | some (.arr cols) =>
        cols.foldl (fun acc col =>
          let colRef : Json :=
            match getField col "columnDefinition" with
            | some defn => (getField defn "column").getD .null
            | none => .null
          match extractPropertyFromColumn colRef with
          | some pid => insertUnique acc pid
          | none => acc) []
      | _ => []
    match getField node "partitionBy" with
    | some (.arr cols) =>
      cols.foldl (fun acc col =>
        match extractPropertyFromColumn col with
        | some pid => insertUnique acc pid
        | none => acc) s1
    | _ => s1
  else []

/-- `extractPropertiesFromAggregationNode`: property ids of `columnsToAdd`
(through `columnDefinition.aggregationColumn`) and of `groupByColumns`. -/
def extractPropertiesFromAggregationNode (node : Json) : List String :=
  if isObjectLike node then
    let s1 : List String :=
      match getField node "columnsToAdd" with
      | some (.arr cols) =>
        cols.foldl (fun acc col =>
          let colRef : Json :=
            match getField col "columnDefinition" with
            | some defn => (getField defn "aggregationColumn").getD .null
            | none => .null
          match extractPropertyFromColumn colRef with
          | some pid => insertUnique acc pid
          | none => acc) []
      | _ => []
    match getField node "groupByColumns" with
    | some (.arr cols) =>
      cols.foldl (fun acc col =>
        match extractPropertyFromColumn ((getField col "column").getD .null) with
        | some pid => insertUnique acc pid
        | none => acc) s1
    | _ => s1
  else []

/-- The loop body of the effect block: a `parameterValues` entry contributes
its `column.objectProperty.propertyTypeId` when its `type` is `column`. -/
def effectParamStep (acc : List String) (kv : String × Json) : List String :=
  match getField kv.2 "type" with
  | some (.str "column") =>
    match extractPropertyFromColumn ((getField kv.2 "column").getD .null) with
    | some pid => acc ++ [pid]
    | none => acc
  | _ => acc

/-- The effect block of `extractAllProperties`: for every entry of
`effect.v2.parameterValues` whose `type` is `column`, the entry's
`column.objectProperty.propertyTypeId`, in field order. -/
def effectColumnProps (logic : Json) : List String :=
  match getField logic "effect" with
  | some effect =>
    match getField effect "v2" with
    | some v2 =>
      match getTruthyField v2 "parameterValues" with
      | some (.obj entries) => entries.foldl effectParamStep []
      | some _ => []
      | none => []
    | none => []
  | none => []

/-- The `filterNode` block of `extractAllProperties`. -/
def filterNodePart (strategy : Json) : List String :=
  match getTruthyField strategy "filterNode" with
  | some node =>
    match getField node "filter" with
    | some f => insertMany [] (extractPropertiesFromFilter f)
    | none => []
  | none => []

/-- The `windowNode` block of `extractAllProperties`. -/
def windowNodePart (strategy : Json) (acc : List String) : List String :=
  match getTruthyField strategy "windowNode" with
  | some node => insertMany acc (extractPropertiesFromWindowNode node)
  | none => acc

/-- The `aggregationNode` block of `extractAllProperties`. -/
def aggregationNodePart (strategy : Json) (acc : List String) : List String :=
  match getTruthyField strategy "aggregationNode" with
  | some node => insertMany acc (extractPropertiesFromAggregationNode node)
  | none => acc

/-- `extractAllProperties`: property ids of the strategy's node payloads
followed by the column-typed entries of `effect.v2.parameterValues`,
returning the empty set when `strategy` is absent or falsy. -/
def extractAllProperties (logic : Json) : List String :=
  if isObjectLike logic then
    match getTruthyField logic "strategy" with
    | none => []
    | some strategy =>
      insertMany (aggregationNodePart strategy (windowNodePart strategy (filterNodePart strategy)))
        (effectColumnProps logic)
  else []

/-- `Array.prototype.join(', ')`. -/
def joinComma : List String → String
  | [] => ""
  | [x] => x
  | x :: y :: r => x ++ ", " ++ joinComma (y :: r)

structure PropertyValidationResult where
  valid : Bool
  errors : List String
  usedProperties : List String
  validProperties : List String
  deriving Repr

def propDoesNotExistMsg (prop objTypeId : String) (validProps : List String) : String :=
  "Property \"" ++ prop ++ "\" does not exist on object type \"" ++ objTypeId ++
    "\". Valid properties: " ++ joinComma validProps

/-- `validateProperties` (src/v2/validation/properties.ts, lines 206-235):
extracts the used properties, then reports one error per used property that
is not declared in the object type config. -/
def validateProperties (logic : Json) (objectTypeConfig : ObjectTypeConfig) :
    PropertyValidationResult :=
  let usedList := extractAllProperties logic
  let validProperties := objectTypeConfig.properties.map (fun p => p.id)
  let errors := usedList.foldl (fun errs prop =>
      if validProperties.contains prop then errs
      else errs ++ [propDoesNotExistMsg prop objectTypeConfig.id validProperties]) []
  { valid := errors.isEmpty, errors := errors,
    usedProperties := usedList, validProperties := validProperties }

-- ===========================================================================
-- Filter-type extraction (src/v2/validation/filters.ts).  The three
-- extractors differ only in the inner column-filter key, factored here into
-- one recursive walk instantiated three times.
-- ===========================================================================

/-- The `columnFilterRule` block of the filter-type extractors: the `type`
of the column filter stored under `key`. -/
def columnTypePart (key : String) (filter : Json) : List String :=
  match getTruthyField filter "columnFilterRule" with
  | some rule =>
    match getField rule "filter" with
    | some columnFilter =>
      match getField columnFilter key with
      | some sub =>
        match getField sub "type" with
        | some (.str t) => if t ≠ "" then insertUnique [] t else []
        | _ => []
      | none => []
    | none => []
  | none => []

mutual

/-- The shared recursive walk of `extractStringFilterTypes`,
`extractNumericFilterTypes` and `extractNullFilterTypes`, which differ only
in the inner column-filter key. -/
def extractFilterTypesBy (key : String) (filter : Json) : List String :=
  if isObjectLike filter then
    typesNotPart key filter
      (typesAndPart key filter (typesOrPart key filter (columnTypePart key filter)))
  else []
  termination_by (sizeOf filter, 3)

def typesOrPart (key : String) (filter : Json) (acc : List String) : List String :=
  match hor : getTruthyField filter "orFilterRule" with
  | some rule =>
    match hof : getField rule "filters" with
    | some (.arr subs) => extractTypesFromList key subs acc
    | _ => acc
  | none => acc
  termination_by (sizeOf filter, 0)
  decreasing_by
  · have h1 := sizeOf_lt_of_getTruthyField hor
    have h2 := sizeOf_lt_of_getField hof
    simp only [Json.arr.sizeOf_spec] at h2
    exact Prod.Lex.left _ _ (by omega)

def typesAndPart (key : String) (filter : Json) (acc : List String) : List String :=
  match han : getTruthyField filter "andFilterRule" with
  | some rule =>
    match haf : getField rule "filters" with
    | some (.arr subs) => extractTypesFromList key subs acc
    | _ => acc
  | none => acc
  termination_by (sizeOf filter, 1)
  decreasing_by
  · have h1 := sizeOf_lt_of_getTruthyField han
    have h2 := sizeOf_lt_of_getField haf
    simp only [Json.arr.sizeOf_spec] at h2
    exact Prod.Lex.left _ _ (by omega)

def typesNotPart (key : String) (filter : Json) (acc : List String) : List String :=
  match hno : getTruthyField filter "notFilterRule" with
  | some rule =>
    match hnf : getField rule "filter" with
    | some inner => insertMany acc (extractFilterTypesBy key inner)
    | none => acc
  | none => acc
  termination_by (sizeOf filter, 2)
  decreasing_by
  · have h1 := sizeOf_lt_of_getTruthyField hno
    have h2 := sizeOf_lt_of_getField hnf
    exact Prod.Lex.left _ _ (by omega)

def extractTypesFromList (key : String) (subs : List Json) (acc : List String) : List String :=
  match subs with
  | [] => acc
  | x :: rest => extractTypesFromList key rest (insertMany acc (extractFilterTypesBy key x))
  termination_by (sizeOf subs, 2)
  decreasing_by
  all_goals exact Prod.Lex.left _ _ (by simp only [List.cons.sizeOf_spec]; omega)

end

def extractStringFilterTypes (filter : Json) : List String :=
  extractFilterTypesBy "stringColumnFilter" filter

def extractNumericFilterTypes (filter : Json) : List String :=
  extractFilterTypesBy "numericColumnFilter" filter

def extractNullFilterTypes (filter : Json) : List String :=
  extractFilterTypesBy "nullColumnFilter" filter

structure FilterValidationResult where
  valid : Bool
  errors : List String
  warnings : List String
  stringTypes : List String
  numericTypes : List String
  nullTypes : List String
  deriving Repr

def stringNotSupportedMsg (t : String) (cfg : ValidationConfig) : String :=
  "String filter type \"" ++ t ++ "\" is not supported. Use one of: " ++
    joinComma cfg.supportedStringFilters

def stringUntestedMsg (t : String) : String :=
  "String filter type \"" ++ t ++
    "\" is not in the list of tested filters. It may not render correctly in the UI."

def numericUntestedMsg (t : String) : String :=
  "Numeric filter type \"" ++ t ++ "\" is not in the list of tested filters."

def nullUntestedMsg (t : String) : String :=
  "Null filter type \"" ++ t ++ "\" is not in the list of tested filters."

/-- The `l?.strategy?.filterNode?.filter` chain of `validateFilterTypes`. -/
def filterOfLogic (logic : Json) : Json :=
  (((getField logic "strategy").bind (fun s => getField s "filterNode")).bind
    (fun n => getField n "filter")).getD .null

/-- `validateFilterTypes` (src/v2/validation/filters.ts, lines 183-248):
string operators in the unsupported list are errors, string operators in
neither list are warnings; numeric and null operators outside their
supported lists are warnings only, and only when the respective supported
list is non-empty; validity is decided by the errors alone. -/
def validateFilterTypes (logic : Json) (cfg : ValidationConfig) :
    FilterValidationResult :=
  let filter := filterOfLogic logic
  let stringTypes := extractStringFilterTypes filter
  let numericTypes := extractNumericFilterTypes filter
  let nullTypes := extractNullFilterTypes filter
  let ew := stringTypes.foldl (fun (p : List String × List String) t =>
      if cfg.unsupportedStringFilters.contains t then
        (p.1 ++ [stringNotSupportedMsg t cfg], p.2)
      else if cfg.supportedStringFilters.contains t then p
      else (p.1, p.2 ++ [stringUntestedMsg t])) ([], [])
  let warnings1 := ew.2
  let warnings2 :=
    if cfg.supportedNumericFilters.isEmpty then warnings1
    else numericTypes.foldl (fun ws t =>
      if cfg.supportedNumericFilters.contains t then ws
      else ws ++ [numericUntestedMsg t]) warnings1
  let warnings3 :=
    if cfg.supportedNullFilters.isEmpty then warnings2
    else nullTypes.foldl (fun ws t =>
      if cfg.supportedNullFilters.contains t then ws
      else ws ++ [nullUntestedMsg t]) warnings2
  { valid := ew.1.isEmpty, errors := ew.1, warnings := warnings3,
    stringTypes := stringTypes, numericTypes := numericTypes,
    nullTypes := nullTypes }

-- ===========================================================================
-- Structure validation (src/src/v2/validation/schema.ts).
-- ===========================================================================

structure ValidationResult where
  valid : Bool
  errors : List String
  warnings : Option (List String)
  deriving Repr

/-- `validateRuleLogic` (src/src/v2/validation/schema.ts, lines 27-101):
checks, in order, grammar version, workflowRid, strategy (type allow-list,
node payload presence, no redundant `type` field on `filterNode`), and
effect shape. -/
def validateRuleLogic (logic : Json) (cfg : ValidationConfig) : ValidationResult :=
  if isObjectLike logic then
    let e1 : List String :=
      match getField logic "grammarVersion" with
      | some (.str g) =>
        if g = cfg.grammarVersion then []
        else ["grammarVersion must be '" ++ cfg.grammarVersion ++ "', got: " ++ g]
      | other =>
        ["grammarVersion must be '" ++ cfg.grammarVersion ++ "', got: " ++ jsDisplayOpt other]
    let e2 : List String :=
      match getField logic "workflowRid" with
      | some (.str s) => if s = "" then ["workflowRid is required and must be a string"] else []
      | _ => ["workflowRid is required and must be a string"]
    let e3 : List String :=
      match getField logic "strategy" with
      | some strategy =>
        if isObjectLike strategy then
          let stratType := getField strategy "type"
          let e3a : List String :=
            match stratType with
            | some (.str t) =>
              if cfg.supportedStrategyTypes.contains t then []
              else ["strategy.type must be one of [" ++ joinComma cfg.supportedStrategyTypes ++
                    "], got: " ++ t]
            | other =>
              ["strategy.type must be one of [" ++ joinComma cfg.supportedStrategyTypes ++
               "], got: " ++ jsDisplayOpt other]
          let e3b : List String :=
            match stratType with
            | some v =>
              if jsTruthy v then
                match getTruthyField strategy (jsDisplay v) with
                | some _ => []
                | none => ["strategy." ++ jsDisplay v ++ " is required when type is '" ++
                           jsDisplay v ++ "'"]
              else []
            | none => []
          let e3c : List String :=
            match stratType with
            | some (.str "filterNode") =>
              match getTruthyField strategy "filterNode" with
              | some fn =>
                if hasKey fn "type" then
                  ["filterNode should NOT have a type field (type goes in strategy)"]
                else []
              | none => []
            | _ => []
          e3a ++ e3b ++ e3c
        else ["strategy is required and must be an object"]
      | none => ["strategy is required and must be an object"]
    let e4 : List String :=
      match getField logic "effect" with
      | some effect =>
        if isObjectLike effect then
          let e4a : List String :=
            match getField effect "type" with
            | some (.str "v2") => []
            | other => ["effect.type must be 'v2', got: " ++ jsDisplayOpt other]
          let e4b : List String :=
            match getField effect "v2" with
            | some v2 =>
              if isObjectLike v2 then
                match getTruthyField v2 "outputAndVersion" with
                | some _ => []
                | none => ["effect.v2.outputAndVersion is required"]
              else ["effect.v2 is required"]
            | none => ["effect.v2 is required"]
          e4a ++ e4b
        else ["effect is required and must be an object"]
      | none => ["effect is required and must be an object"]
    let errors := e1 ++ e2 ++ e3 ++ e4
    { valid := errors.isEmpty, errors := errors, warnings := none }
  else { valid := false, errors := ["Root must be an object"], warnings := none }

/-- `extractWorkflowRid`: the top-level `workflowRid`, `null` when falsy. -/
def extractWorkflowRid (logic : Json) : Option String :=
  if isObjectLike logic then
    match getField logic "workflowRid" with
    | some (.str s) => if s = "" then none else some s
    | _ => none
  else none

def sourceObjectTypeIdOfNode (strategy : Json) (nodeType : String) : Option String :=
  match getField strategy nodeType with
  | some node =>
    match getField node "nodeInput" with
    | some ni =>
      match getField ni "source" with
      | some src =>
        match getField src "objectTypeId" with
        | some (.str s) => if s = "" then none else some s
        | _ => none
      | none => none
    | none => none
  | none => none

/-- `extractObjectTypeId`: the node input's source object type, trying
`filterNode`, `windowNode` and `aggregationNode` in order. -/
def extractObjectTypeId (logic : Json) : Option String :=
  if isObjectLike logic then
    match getTruthyField logic "strategy" with
    | some strategy =>
      match sourceObjectTypeIdOfNode strategy "filterNode" with
      | some s => some s
      | none =>
        match sourceObjectTypeIdOfNode strategy "windowNode" with
        | some s => some s
        | none => sourceObjectTypeIdOfNode strategy "aggregationNode"
    | none => none
  else none

-- ===========================================================================
-- Full validation pipeline (proposal-cli-v2.ts, `performFullValidation`).
-- ===========================================================================

structure FullValidationResult where
  valid : Bool
  structureErrors : List String
  propertyErrors : List String
  filterErrors : List String
  filterWarnings : List String
  deriving Repr

def workflowRidMismatchMsg (expected actual : String) : String :=
  "workflowRid mismatch: config expects '" ++ expected ++ "', got '" ++ actual ++ "'"

def objectTypeIdMismatchMsg (expected actual : String) : String :=
  "objectTypeId mismatch: config expects '" ++ expected ++ "', got '" ++ actual ++ "'"

/-- `performFullValidation`: structure pass first, returning immediately on
failure with the later passes' error lists empty; otherwise the rid and
object-type mismatch checks, the property pass and the filter-type pass. -/
def performFullValidation (logic : Json) (config : ResolvedConfig) :
    FullValidationResult :=
  let structureResult := validateRuleLogic logic config.validation
  if structureResult.valid then
    let ridErrs : List String :=
      match extractWorkflowRid logic with
      | some rid =>
        if rid ≠ config.workflow.workflowRid then
          [workflowRidMismatchMsg config.workflow.workflowRid rid]
        else []
      | none => []
    let objErrs : List String :=
      match extractObjectTypeId logic with
      | some oid =>
        if oid ≠ config.workflow.objectType.id then
          [objectTypeIdMismatchMsg config.workflow.objectType.id oid]
        else []
      | none => []
    let propResult := validateProperties logic config.workflow.objectType
    let filterResult := validateFilterTypes logic config.validation
    { valid := ridErrs.isEmpty && objErrs.isEmpty && propResult.valid && filterResult.valid,
      structureErrors := structureResult.errors ++ ridErrs ++ objErrs,
      propertyErrors := propResult.errors,
      filterErrors := filterResult.errors,
      filterWarnings := filterResult.warnings }
  else
    { valid := false, structureErrors := structureResult.errors,
      propertyErrors := [], filterErrors := [], filterWarnings := [] }

-- ===========================================================================
-- Supporting lemmas: error-fold characterization, substring containment,
-- insertion-ordered sets.
-- ===========================================================================

theorem foldl_guard_append (valid : List String) (msg : String → String) :
    ∀ (l acc : List String),
      l.foldl (fun errs p => if valid.contains p then errs else errs ++ [msg p]) acc
        = acc ++ (l.filter (fun p => ! valid.contains p)).map msg := by
  intro l
  induction l with
  | nil => intro acc; simp
  | cons x rest ih =>
    intro acc
    by_cases hx : x ∈ valid
    · have hxc : valid.contains x = true := by simpa using hx
      simp_all [List.foldl_cons]
    · have hxc : valid.contains x = false := by simpa using hx
      simp_all [List.foldl_cons, List.append_assoc]

/-- Left-to-right string search primitives, modelling the `includes` checks
stated about the error messages. -/
def startsWithL : List Char → List Char → Bool
  | [], _ => true
  | a :: as, hay =>
    match hay with
    | b :: bs => a == b && startsWithL as bs
    | [] => false

def containsL (needle : List Char) : List Char → Bool
  | [] => needle.isEmpty
  | l@(_ :: rest) => startsWithL needle l || containsL needle rest

def strContains (hay needle : String) : Bool := containsL needle.data hay.data

theorem startsWithL_append (n t : List Char) : startsWithL n (n ++ t) = true := by
  induction n with
  | nil => simp [startsWithL]
  | cons a as ih => simp [startsWithL, ih]

theorem containsL_here (n t : List Char) : containsL n (n ++ t) = true := by
  cases n with
  | nil =>
    cases t with
    | nil => simp [containsL, List.isEmpty]
    | cons x r => simp [containsL, startsWithL]
  | cons a as =>
    have h1 : startsWithL (a :: as) ((a :: as) ++ t) = true := startsWithL_append _ _
    rw [show (a :: as) ++ t = a :: (as ++ t) from rfl] at h1
    simp [containsL, h1]

theorem containsL_append_left (n : List Char) :
    ∀ (pre hay : List Char), containsL n hay = true → containsL n (pre ++ hay) = true := by
  intro pre
  induction pre with
  | nil => intro hay h; simpa using h
  | cons p rest ih =>
    intro hay h
    have := ih hay h
    simp [containsL, this]

theorem data_append (a b : String) : (a ++ b).data = a.data ++ b.data := by
  cases a
  cases b
  rfl

theorem strContains_concat (pre needle post : String) :
    strContains (pre ++ (needle ++ post)) needle = true := by
  unfold strContains
  rw [data_append, data_append]
  exact containsL_append_left _ _ _ (containsL_here _ _)

theorem mem_insertUnique_self (acc : List String) (x : String) :
    x ∈ insertUnique acc x := by
  unfold insertUnique
  split
  · assumption
  · simp

theorem mem_insertUnique_of_mem {acc : List String} {y : String} (x : String)
    (h : y ∈ acc) : y ∈ insertUnique acc x := by
  unfold insertUnique
  split
  · exact h
  · exact List.mem_append_left _ h

theorem mem_insertMany_left {y : String} :
    ∀ {l acc : List String}, y ∈ acc → y ∈ insertMany acc l := by
  intro l
  induction l with
  | nil => intro acc h; exact h
  | cons x rest ih =>
    intro acc h
    show y ∈ insertMany (insertUnique acc x) rest
    exact ih (mem_insertUnique_of_mem x h)

theorem mem_insertMany_right {y : String} :
    ∀ {l acc : List String}, y ∈ l → y ∈ insertMany acc l := by
  intro l
  induction l with
  | nil => intro acc h; cases h
  | cons x rest ih =>
    intro acc h
    rcases List.mem_cons.mp h with h1 | h2
    · subst h1
      show y ∈ insertMany (insertUnique acc y) rest
      exact mem_insertMany_left (mem_insertUnique_self acc y)
    · show y ∈ insertMany (insertUnique acc x) rest
      exact ih h2

theorem nodup_insertUnique {acc : List String} (x : String) (h : acc.Nodup) :
    (insertUnique acc x).Nodup := by
  unfold insertUnique
  split
  · exact h
  · rw [List.nodup_append]
    refine ⟨h, by simp, ?_⟩
    intro a ha hax
    simp at hax
    subst hax
    exact absurd ha (by assumption)

theorem nodup_insertMany :
    ∀ {l acc : List String}, acc.Nodup → (insertMany acc l).Nodup := by
  intro l
  induction l with
  | nil => intro acc h; exact h
  | cons x rest ih =>
    intro acc h
    show (insertMany (insertUnique acc x) rest).Nodup
    exact ih (nodup_insertUnique x h)

-- ===========================================================================
-- Claim C4: the property pass.
-- ===========================================================================

theorem insertMany_of_nodup : ∀ (l acc : List String), (acc ++ l).Nodup →
    insertMany acc l = acc ++ l := by
  intro l
  induction l with
  | nil => intro acc h; simp [insertMany]
  | cons x rest ih =>
    intro acc h
    show insertMany (insertUnique acc x) rest = acc ++ x :: rest
    have hx : x ∉ acc := by
      intro hmem
      rcases List.nodup_append.mp h with ⟨_, _, hdisj⟩
      exact hdisj hmem (List.mem_cons_self _ _)
    have hu : insertUnique acc x = acc ++ [x] := by simp [insertUnique, hx]
    rw [hu, ih (acc ++ [x]) (by simpa [List.append_assoc] using h)]
    simp

theorem nodup_extractPropsFromList :
    ∀ (subs : List Json) {acc : List String}, acc.Nodup →
      (extractPropsFromList subs acc).Nodup := by
  intro subs
  induction subs with
  | nil => intro acc h; simpa [extractPropsFromList] using h
  | cons x rest ih =>
    intro acc h
    rw [extractPropsFromList]
    exact ih (nodup_insertMany h)

theorem nodup_columnFilterPart (f : Json) : (columnFilterPart f).Nodup := by
  rw [columnFilterPart]
  split
  · split
    · exact nodup_insertUnique _ List.nodup_nil
    · exact List.nodup_nil
  · exact List.nodup_nil

theorem nodup_orFilterPart (f : Json) {acc : List String} (h : acc.Nodup) :
    (orFilterPart f acc).Nodup := by
  rw [orFilterPart]
  split
  · split
    · exact nodup_extractPropsFromList _ h
    · exact h
  · exact h

theorem nodup_andFilterPart (f : Json) {acc : List String} (h : acc.Nodup) :
    (andFilterPart f acc).Nodup := by
  rw [andFilterPart]
  split
  · split
    · exact nodup_extractPropsFromList _ h
    · exact h
  · exact h

theorem nodup_notFilterPart (f : Json) {acc : List String} (h : acc.Nodup) :
    (notFilterPart f acc).Nodup := by
  rw [notFilterPart]
  split
  · split
    · exact nodup_insertMany h
    · exact h
  · exact h

theorem nodup_extractPropertiesFromFilter (f : Json) :
    (extractPropertiesFromFilter f).Nodup := by
  rw [extractPropertiesFromFilter]
  by_cases h0 : isObjectLike f = true
  · rw [if_pos h0]
    exact nodup_notFilterPart _ (nodup_andFilterPart _ (nodup_orFilterPart _ (nodup_columnFilterPart f)))
  · rw [if_neg h0]
    exact List.nodup_nil

theorem nodup_filterNodePart (strategy : Json) : (filterNodePart strategy).Nodup := by
  rw [filterNodePart]
  split
  · split
    · exact nodup_insertMany List.nodup_nil
    · exact List.nodup_nil
  · exact List.nodup_nil

theorem nodup_windowNodePart (strategy : Json) {acc : List String} (h : acc.Nodup) :
    (windowNodePart strategy acc).Nodup := by
  rw [windowNodePart]
  split
  · exact nodup_insertMany h
  · exact h

theorem nodup_aggregationNodePart (strategy : Json) {acc : List String} (h : acc.Nodup) :
    (aggregationNodePart strategy acc).Nodup := by
  rw [aggregationNodePart]
  split
  · exact nodup_insertMany h
  · exact h

theorem nodup_extractAllProperties (logic : Json) :
    (extractAllProperties logic).Nodup := by
  rw [extractAllProperties]
  by_cases h0 : isObjectLike logic = true
  · rw [if_pos h0]
    split
    · exact List.nodup_nil
    · exact nodup_insertMany
        (nodup_aggregationNodePart _ (nodup_windowNodePart _ (nodup_filterNodePart _)))
  · rw [if_neg h0]
    exact List.nodup_nil

theorem validateProperties_errors_eq (logic : Json) (cfg : ObjectTypeConfig) :
    (validateProperties logic cfg).errors
      = ((extractAllProperties logic).filter
          (fun p => ! (cfg.properties.map (fun q => q.id)).contains p)).map
          (fun p => propDoesNotExistMsg p cfg.id (cfg.properties.map (fun q => q.id))) := by
  have h := foldl_guard_append (cfg.properties.map (fun q => q.id))
    (fun p => propDoesNotExistMsg p cfg.id (cfg.properties.map (fun q => q.id)))
    (extractAllProperties logic) []
  simpa [validateProperties] using h

theorem propMsg_injective (oid : String) (vp : List String) :
    Function.Injective (fun p => propDoesNotExistMsg p oid vp) := by
  intro p1 p2 h
  simp only [propDoesNotExistMsg] at h
  have h2 := congrArg String.data h
  simp only [data_append, List.append_assoc] at h2
  have h3 := List.append_cancel_left h2
  have h4 := List.append_cancel_right h3
  cases p1
  cases p2
  exact congrArg String.mk h4

theorem propMsg_contains_parts (p oid : String) (vp : List String) :
    strContains (propDoesNotExistMsg p oid vp) p = true
  ∧ strContains (propDoesNotExistMsg p oid vp) "does not exist" = true
  ∧ strContains (propDoesNotExistMsg p oid vp) (joinComma vp) = true := by
  refine ⟨?_, ?_, ?_⟩
  · have h : propDoesNotExistMsg p oid vp =
        "Property \"" ++ (p ++ ("\" does not exist on object type \"" ++ (oid ++
          ("\". Valid properties: " ++ joinComma vp)))) := by
      simp [propDoesNotExistMsg, String.append_assoc]
    rw [h]
    exact strContains_concat _ _ _
  · have hsplit : ("\" does not exist on object type \"" : String).data
        = "\" ".data ++ ("does not exist".data ++ " on object type \"".data) := by decide
    unfold strContains
    have hdata : (propDoesNotExistMsg p oid vp).data
        = ("Property \"".data ++ (p.data ++ "\" ".data))
          ++ ("does not exist".data ++ (" on object type \"".data ++ (oid.data ++
              ("\". Valid properties: ".data ++ (joinComma vp).data)))) := by
      simp [propDoesNotExistMsg, data_append, hsplit, List.append_assoc]
    rw [hdata]
    exact containsL_append_left _ _ _ (containsL_here _ _)
  · have h : propDoesNotExistMsg p oid vp =
        ("Property \"" ++ p ++ "\" does not exist on object type \"" ++ oid ++
          "\". Valid properties: ") ++ (joinComma vp ++ "") := by
      simp [propDoesNotExistMsg, String.append_assoc]
    rw [h]
    exact strContains_concat _ _ _

theorem extract_malformed (j : Json) (h : isObjectLike j = false) :
    extractPropertiesFromFilter j = [] := by
  rw [extractPropertiesFromFilter]
  rw [if_neg (by simp [h])]

theorem extract_not_wrapper (f : Json) :
    extractPropertiesFromFilter
      (.obj [("notFilterRule", .obj [("filter", f)]), ("type", .str "notFilterRule")])
      = extractPropertiesFromFilter f := by
  have h1 : extractPropertiesFromFilter
      (.obj [("notFilterRule", .obj [("filter", f)]), ("type", .str "notFilterRule")])
      = insertMany [] (extractPropertiesFromFilter f) := by
    rw [extractPropertiesFromFilter]
    simp [columnFilterPart, orFilterPart, andFilterPart, notFilterPart,
          getTruthyField, getField, List.lookup, jsTruthy, isObjectLike]
  rw [h1]
  have h2 := insertMany_of_nodup (extractPropertiesFromFilter f) []
    (by simpa using nodup_extractPropertiesFromFilter f)
  simpa using h2

theorem extract_or_wrapper (fs : List Json) :
    extractPropertiesFromFilter
      (.obj [("orFilterRule", .obj [("filters", .arr fs)]), ("type", .str "orFilterRule")])
      = extractPropsFromList fs [] := by
  rw [extractPropertiesFromFilter]
  simp [columnFilterPart, orFilterPart, andFilterPart, notFilterPart,
        getTruthyField, getField, List.lookup, jsTruthy, isObjectLike]

theorem extract_and_wrapper (fs : List Json) :
    extractPropertiesFromFilter
      (.obj [("andFilterRule", .obj [("filters", .arr fs)]), ("type", .str "andFilterRule")])
      = extractPropsFromList fs [] := by
  rw [extractPropertiesFromFilter]
  simp [columnFilterPart, orFilterPart, andFilterPart, notFilterPart,
        getTruthyField, getField, List.lookup, jsTruthy, isObjectLike]

theorem validateProperties_valid_iff (logic : Json) (cfg : ObjectTypeConfig) :
    (validateProperties logic cfg).valid = true ↔
      ∀ p ∈ extractAllProperties logic,
        (cfg.properties.map (fun q => q.id)).contains p = true := by
  have hv : (validateProperties logic cfg).valid
      = (validateProperties logic cfg).errors.isEmpty := rfl
  rw [hv, validateProperties_errors_eq]
  have hiff : (((extractAllProperties logic).filter
        (fun p => ! (cfg.properties.map (fun q => q.id)).contains p)).map
        (fun p => propDoesNotExistMsg p cfg.id (cfg.properties.map (fun q => q.id)))).isEmpty = true
      ↔ (extractAllProperties logic).filter
          (fun p => ! (cfg.properties.map (fun q => q.id)).contains p) = [] := by
    rw [List.isEmpty_iff]
    constructor
    · intro hm
      exact List.map_eq_nil_iff.mp hm
    · intro hf
      rw [hf]
      rfl
  rw [hiff, List.filter_eq_nil_iff]
  constructor
  · intro h p hp
    by_cases hcp : (cfg.properties.map (fun q => q.id)).contains p = true
    · exact hcp
    · exfalso
      apply h p hp
      have hf : (cfg.properties.map (fun q => q.id)).contains p = false := by
        simpa using hcp
      rw [hf]
      rfl
  · intro h p hp
    rw [h p hp]
    simp

/-- Claim C4: `validateProperties` extracts property ids recursively through
and/or/not nesting to arbitrary depth, degrading to the empty set (never
throwing) on malformed subtrees; each extracted property id missing from the
schema's declared set yields exactly one error that names the property,
contains the phrase `does not exist`, and lists the declared valid set; the
result is valid exactly when every extracted property is declared, and zero
used properties is valid. -/
theorem validateProperties_property_pass (logic : Json) (cfg : ObjectTypeConfig) :
    (∀ j : Json, isObjectLike j = false → extractPropertiesFromFilter j = [])
  ∧ (∀ f : Json, extractPropertiesFromFilter
        (.obj [("notFilterRule", .obj [("filter", f)]), ("type", .str "notFilterRule")])
        = extractPropertiesFromFilter f)
  ∧ (∀ fs : List Json, extractPropertiesFromFilter
        (.obj [("orFilterRule", .obj [("filters", .arr fs)]), ("type", .str "orFilterRule")])
        = extractPropsFromList fs [])
  ∧ (∀ fs : List Json, extractPropertiesFromFilter
        (.obj [("andFilterRule", .obj [("filters", .arr fs)]), ("type", .str "andFilterRule")])
        = extractPropsFromList fs [])
  ∧ (validateProperties logic cfg).usedProperties = extractAllProperties logic
  ∧ (validateProperties logic cfg).validProperties = cfg.properties.map (fun p => p.id)
  ∧ (validateProperties logic cfg).usedProperties.Nodup
  ∧ (validateProperties logic cfg).errors
      = ((validateProperties logic cfg).usedProperties.filter
          (fun p => ! (validateProperties logic cfg).validProperties.contains p)).map
          (fun p => propDoesNotExistMsg p cfg.id (validateProperties logic cfg).validProperties)
  ∧ (∀ p, p ∈ (validateProperties logic cfg).usedProperties →
        (validateProperties logic cfg).validProperties.contains p = false →
          (validateProperties logic cfg).errors.count
            (propDoesNotExistMsg p cfg.id (validateProperties logic cfg).validProperties) = 1
        ∧ strContains (propDoesNotExistMsg p cfg.id (validateProperties logic cfg).validProperties)
            p = true
        ∧ strContains (propDoesNotExistMsg p cfg.id (validateProperties logic cfg).validProperties)
            "does not exist" = true
        ∧ strContains (propDoesNotExistMsg p cfg.id (validateProperties logic cfg).validProperties)
            (joinComma (validateProperties logic cfg).validProperties) = true)
  ∧ ((validateProperties logic cfg).valid = true ↔
      ∀ p ∈ (validateProperties logic cfg).usedProperties,
        (validateProperties logic cfg).validProperties.contains p = true)
  ∧ ((validateProperties logic cfg).usedProperties = [] →
      (validateProperties logic cfg).valid = true) := by
  have hused : (validateProperties logic cfg).usedProperties = extractAllProperties logic := rfl
  have hvalidp : (validateProperties logic cfg).validProperties
      = cfg.properties.map (fun p => p.id) := rfl
  refine ⟨extract_malformed, extract_not_wrapper, extract_or_wrapper, extract_and_wrapper,
    hused, hvalidp, ?_, ?_, ?_, ?_, ?_⟩
  · rw [hused]
    exact nodup_extractAllProperties logic
  · rw [hused, hvalidp]
    exact validateProperties_errors_eq logic cfg
  · intro p hp hnc
    rw [hused] at hp
    rw [hvalidp] at hnc ⊢
    refine ⟨?_, (propMsg_contains_parts p cfg.id _).1, (propMsg_contains_parts p cfg.id _).2.1,
      (propMsg_contains_parts p cfg.id _).2.2⟩
    rw [validateProperties_errors_eq]
    rw [List.count_map_of_injective _ _ (propMsg_injective cfg.id _)]
    have hmem : p ∈ (extractAllProperties logic).filter
        (fun q => ! (cfg.properties.map (fun r => r.id)).contains q) :=
      List.mem_filter.mpr ⟨hp, by rw [hnc]; rfl⟩
    have hnd : ((extractAllProperties logic).filter
        (fun q => ! (cfg.properties.map (fun r => r.id)).contains q)).Nodup :=
      (nodup_extractAllProperties logic).filter _
    exact List.count_eq_one_of_mem hnd hmem
  · rw [hused, hvalidp]
    exact validateProperties_valid_iff logic cfg
  · intro hempty
    rw [(validateProperties_valid_iff logic cfg)]
    intro p hp
    rw [hused] at hempty
    rw [hempty] at hp
    cases hp

/-- The spec's example schema for the property pass. -/
def schemaABC : ObjectTypeConfig :=
  { id := "test.object-type"
  , properties :=
    [ { id := "property_a", type := "string" }
    , { id := "property_b", type := "string" }
    , { id := "property_c", type := "string" } ] }

/-- A rule logic whose filter references the undeclared `unknown_property`. -/
def logicUnknownProp : Json :=
  Json.obj [("strategy", Json.obj [
    ("filterNode", Json.obj [("filter", Json.obj [
      ("columnFilterRule", Json.obj [
        ("column", Json.obj [("objectProperty", Json.obj [
           ("objectTypeId", Json.str "test.object-type"),
           ("propertyTypeId", Json.str "unknown_property")])])]),
      ("type", Json.str "columnFilterRule")])]),
    ("type", Json.str "filterNode")])]

/-- Witness for claim C4's theorem: the undeclared `unknown_property` yields
exactly one error and that error contains `does not exist`. -/
theorem validateProperties_property_pass_witness :
    (validateProperties logicUnknownProp schemaABC).errors.count
        (propDoesNotExistMsg "unknown_property" schemaABC.id
          (validateProperties logicUnknownProp schemaABC).validProperties) = 1
  ∧ strContains (propDoesNotExistMsg "unknown_property" schemaABC.id
        (validateProperties logicUnknownProp schemaABC).validProperties)
        "does not exist" = true := by
  have heval : (validateProperties logicUnknownProp schemaABC).usedProperties
      = ["unknown_property"] := by
    show extractAllProperties logicUnknownProp = _
    rw [extractAllProperties]
    simp [logicUnknownProp, filterNodePart, windowNodePart, aggregationNodePart,
          extractPropertiesFromFilter, columnFilterPart, orFilterPart, andFilterPart,
          notFilterPart, extractPropsFromList, effectColumnProps, getTruthyField,
          getField, jsTruthy, isObjectLike, columnRulePropId, insertMany, insertUnique,
          List.lookup]
  have hmem : "unknown_property" ∈ (validateProperties logicUnknownProp schemaABC).usedProperties := by
    rw [heval]
    simp
  have hnc : (validateProperties logicUnknownProp schemaABC).validProperties.contains
      "unknown_property" = false := by decide
  have h := (validateProperties_property_pass logicUnknownProp schemaABC).2.2.2.2.2.2.2.2.1
    "unknown_property" hmem hnc
  exact ⟨h.1, h.2.2.1⟩

-- ===========================================================================
-- Claim C5: the filter-type pass.
-- ===========================================================================

theorem filter_fold_split (unsup sup : List String) (msgE msgW : String → String) :
    ∀ (l e w : List String),
      (l.foldl (fun (p : List String × List String) t =>
        if unsup.contains t then (p.1 ++ [msgE t], p.2)
        else if sup.contains t then p
        else (p.1, p.2 ++ [msgW t])) (e, w))
      = (e ++ (l.filter (fun t => unsup.contains t)).map msgE,
         w ++ (l.filter (fun t => !unsup.contains t && !sup.contains t)).map msgW) := by
  intro l
  induction l with
  | nil => intro e w; simp
  | cons x rest ih =>
    intro e w
    by_cases h1 : x ∈ unsup
    · have h1c : unsup.contains x = true := by simpa using h1
      simp_all [List.foldl_cons, List.append_assoc]
    · have h1c : unsup.contains x = false := by simpa using h1
      by_cases h2 : x ∈ sup
      · have h2c : sup.contains x = true := by simpa using h2
        simp_all [List.foldl_cons]
      · have h2c : sup.contains x = false := by simpa using h2
        simp_all [List.foldl_cons, List.append_assoc]

theorem validateFilterTypes_eq (logic : Json) (cfg : ValidationConfig) :
    validateFilterTypes logic cfg =
      { valid := (((extractStringFilterTypes (filterOfLogic logic)).filter
            (fun t => cfg.unsupportedStringFilters.contains t)).map
            (fun t => stringNotSupportedMsg t cfg)).isEmpty
      , errors := ((extractStringFilterTypes (filterOfLogic logic)).filter
            (fun t => cfg.unsupportedStringFilters.contains t)).map
            (fun t => stringNotSupportedMsg t cfg)
      , warnings :=
          (((extractStringFilterTypes (filterOfLogic logic)).filter
            (fun t => !cfg.unsupportedStringFilters.contains t
                      && !cfg.supportedStringFilters.contains t)).map stringUntestedMsg)
          ++ (if cfg.supportedNumericFilters.isEmpty then [] else
              ((extractNumericFilterTypes (filterOfLogic logic)).filter
                (fun t => !cfg.supportedNumericFilters.contains t)).map numericUntestedMsg)
          ++ (if cfg.supportedNullFilters.isEmpty then [] else
              ((extractNullFilterTypes (filterOfLogic logic)).filter
                (fun t => !cfg.supportedNullFilters.contains t)).map nullUntestedMsg)
      , stringTypes := extractStringFilterTypes (filterOfLogic logic)
      , numericTypes := extractNumericFilterTypes (filterOfLogic logic)
      , nullTypes := extractNullFilterTypes (filterOfLogic logic) } := by
  unfold validateFilterTypes
  have hsplit := filter_fold_split cfg.unsupportedStringFilters cfg.supportedStringFilters
    (fun t => stringNotSupportedMsg t cfg) stringUntestedMsg
    (extractStringFilterTypes (filterOfLogic logic)) [] []
  simp only [hsplit]
  simp only [foldl_guard_append cfg.supportedNumericFilters numericUntestedMsg,
             foldl_guard_append cfg.supportedNullFilters nullUntestedMsg]
  by_cases hnum : cfg.supportedNumericFilters.isEmpty <;>
    by_cases hnull : cfg.supportedNullFilters.isEmpty <;>
      simp [hnum, hnull, List.append_assoc]

theorem stringNotSupportedMsg_contains (t : String) (cfg : ValidationConfig) :
    strContains (stringNotSupportedMsg t cfg) t = true
  ∧ strContains (stringNotSupportedMsg t cfg) "not supported" = true
  ∧ strContains (stringNotSupportedMsg t cfg) (joinComma cfg.supportedStringFilters) = true := by
  refine ⟨?_, ?_, ?_⟩
  · have h : stringNotSupportedMsg t cfg =
        "String filter type \"" ++ (t ++ ("\" is not supported. Use one of: " ++
          joinComma cfg.supportedStringFilters)) := by
      simp [stringNotSupportedMsg, String.append_assoc]
    rw [h]
    exact strContains_concat _ _ _
  · have hsplit : ("\" is not supported. Use one of: " : String).data
        = "\" is ".data ++ ("not supported".data ++ ". Use one of: ".data) := by decide
    unfold strContains
    have hdata : (stringNotSupportedMsg t cfg).data
        = ("String filter type \"".data ++ (t.data ++ "\" is ".data))
          ++ ("not supported".data ++ (". Use one of: ".data ++
              (joinComma cfg.supportedStringFilters).data)) := by
      simp [stringNotSupportedMsg, data_append, hsplit, List.append_assoc]
    rw [hdata]
    exact containsL_append_left _ _ _ (containsL_here _ _)
  · have h : stringNotSupportedMsg t cfg =
        ("String filter type \"" ++ t ++ "\" is not supported. Use one of: ")
          ++ (joinComma cfg.supportedStringFilters ++ "") := by
      simp [stringNotSupportedMsg, String.append_assoc]
    rw [h]
    exact strContains_concat _ _ _

theorem stringUntestedMsg_contains (t : String) :
    strContains (stringUntestedMsg t) t = true := by
  have h : stringUntestedMsg t =
      "String filter type \"" ++ (t ++
        "\" is not in the list of tested filters. It may not render correctly in the UI.") := by
    simp [stringUntestedMsg, String.append_assoc]
  rw [h]
  exact strContains_concat _ _ _

/-- Claim C5: in the filter-type pass, every used string operator in the
configured unsupported set produces an error naming the operator, containing
`not supported` and listing the supported alternatives; every used string
operator absent from both lists produces a warning naming the operator; and
validity is decided by the error list alone — warnings never flip it. -/
theorem validateFilterTypes_filter_pass (logic : Json) (cfg : ValidationConfig) :
    (validateFilterTypes logic cfg).errors
      = ((validateFilterTypes logic cfg).stringTypes.filter
          (fun t => cfg.unsupportedStringFilters.contains t)).map
          (fun t => stringNotSupportedMsg t cfg)
  ∧ (∀ t : String,
        strContains (stringNotSupportedMsg t cfg) t = true
      ∧ strContains (stringNotSupportedMsg t cfg) "not supported" = true
      ∧ strContains (stringNotSupportedMsg t cfg) (joinComma cfg.supportedStringFilters) = true)
  ∧ (∀ t ∈ (validateFilterTypes logic cfg).stringTypes,
        cfg.unsupportedStringFilters.contains t = false →
        cfg.supportedStringFilters.contains t = false →
          stringUntestedMsg t ∈ (validateFilterTypes logic cfg).warnings
        ∧ strContains (stringUntestedMsg t) t = true)
  ∧ (validateFilterTypes logic cfg).valid = (validateFilterTypes logic cfg).errors.isEmpty
  ∧ ((validateFilterTypes logic cfg).valid = true ↔ (validateFilterTypes logic cfg).errors = []) := by
  refine ⟨?_, fun t => stringNotSupportedMsg_contains t cfg, ?_, ?_, ?_⟩
  · rw [validateFilterTypes_eq]
  · intro t ht h1 h2
    refine ⟨?_, stringUntestedMsg_contains t⟩
    rw [validateFilterTypes_eq] at ht ⊢
    have hfil : t ∈ (extractStringFilterTypes (filterOfLogic logic)).filter
        (fun t => !cfg.unsupportedStringFilters.contains t
                  && !cfg.supportedStringFilters.contains t) := by
      refine List.mem_filter.mpr ⟨ht, ?_⟩
      rw [h1, h2]
      rfl
    exact List.mem_append_left _ (List.mem_append_left _ (List.mem_map_of_mem _ hfil))
  · rw [validateFilterTypes_eq]
  · rw [validateFilterTypes_eq]
    simp [List.isEmpty_iff]

/-- A validation config matching the spec's filter-pass example: `REGEX` is
explicitly unsupported and only `EQUALS` is tested. -/
def cfgRegex : ValidationConfig :=
  { grammarVersion := "V1"
  , supportedStrategyTypes := ["filterNode"]
  , supportedStringFilters := ["EQUALS"]
  , unsupportedStringFilters := ["REGEX"]
  , supportedNumericFilters := []
  , supportedNullFilters := [] }

/-- A rule logic using the string operators `REGEX` and `FANCY`. -/
def logicTwoOps : Json :=
  Json.obj [("strategy", Json.obj [
    ("filterNode", Json.obj [("filter", Json.obj [
      ("andFilterRule", Json.obj [("filters", Json.arr [
        Json.obj [("columnFilterRule", Json.obj [("filter", Json.obj [
          ("stringColumnFilter", Json.obj [("type", Json.str "REGEX")]),
          ("type", Json.str "stringColumnFilter")])]),
         ("type", Json.str "columnFilterRule")],
        Json.obj [("columnFilterRule", Json.obj [("filter", Json.obj [
          ("stringColumnFilter", Json.obj [("type", Json.str "FANCY")]),
          ("type", Json.str "stringColumnFilter")])]),
         ("type", Json.str "columnFilterRule")]])]),
      ("type", Json.str "andFilterRule")])]),
    ("type", Json.str "filterNode")])]

/-- Witness for claim C5's theorem: the operator `FANCY`, absent from both
lists, produces its warning, and the warning names the operator. -/
theorem validateFilterTypes_filter_pass_witness :
    stringUntestedMsg "FANCY" ∈ (validateFilterTypes logicTwoOps cfgRegex).warnings
  ∧ strContains (stringUntestedMsg "FANCY") "FANCY" = true := by
  have hst : (validateFilterTypes logicTwoOps cfgRegex).stringTypes = ["REGEX", "FANCY"] := by
    show extractStringFilterTypes (filterOfLogic logicTwoOps) = _
    rw [show filterOfLogic logicTwoOps
        = (((getField logicTwoOps "strategy").bind (fun s => getField s "filterNode")).bind
            (fun n => getField n "filter")).getD .null from rfl]
    simp only [logicTwoOps, getField, List.lookup]
    rw [extractStringFilterTypes]
    rw [extractFilterTypesBy]
    simp [columnTypePart, typesOrPart, typesAndPart, typesNotPart, extractTypesFromList,
          extractFilterTypesBy, getTruthyField, getField, jsTruthy, isObjectLike,
          insertMany, insertUnique, List.lookup]
  have hmem : "FANCY" ∈ (validateFilterTypes logicTwoOps cfgRegex).stringTypes := by
    rw [hst]
    simp
  exact (validateFilterTypes_filter_pass logicTwoOps cfgRegex).2.2.1 "FANCY" hmem rfl rfl

-- ===========================================================================
-- Claim C6: the full validator fails fast after a failed structure pass.
-- ===========================================================================

/-- Claim C6: when the structure pass fails, `performFullValidation` returns
immediately with `valid:false`, the structure errors, and empty property,
filter-error and filter-warning lists — the later passes are not run. -/
theorem performFullValidation_fail_fast (logic : Json) (config : ResolvedConfig)
    (h : (validateRuleLogic logic config.validation).valid = false) :
    performFullValidation logic config =
      { valid := false
      , structureErrors := (validateRuleLogic logic config.validation).errors
      , propertyErrors := []
      , filterErrors := []
      , filterWarnings := [] } := by
  simp [performFullValidation, h]

/-- Witness for claim C6's theorem: a rule logic that is not even an object
fails the structure pass, and the full validator stops there. -/
theorem performFullValidation_fail_fast_witness :
    performFullValidation Json.null ⟨sampleWorkflow, cfgRegex⟩ =
      { valid := false
      , structureErrors := ["Root must be an object"]
      , propertyErrors := []
      , filterErrors := []
      , filterWarnings := [] } := by
  rw [performFullValidation_fail_fast Json.null ⟨sampleWorkflow, cfgRegex⟩ rfl]
  rfl

-- ===========================================================================
-- Claim C10: effect parameter columns join the used-property set.
-- ===========================================================================

theorem effect_fold_mono (pv : List (String × Json)) {pid : String} :
    ∀ {acc : List String}, pid ∈ acc → pid ∈ pv.foldl effectParamStep acc := by
  induction pv with
  | nil => intro acc h; exact h
  | cons kv rest ih =>
    intro acc h
    show pid ∈ rest.foldl effectParamStep (effectParamStep acc kv)
    apply ih
    rw [effectParamStep]
    split
    · split
      · exact List.mem_append_left _ h
      · exact h
    · exact h

theorem mem_effect_fold (pv : List (String × Json)) (entry : String × Json) (pid : String)
    (hm : entry ∈ pv)
    (ht : getField entry.2 "type" = some (.str "column"))
    (he : extractPropertyFromColumn ((getField entry.2 "column").getD .null) = some pid) :
    ∀ acc : List String, pid ∈ pv.foldl effectParamStep acc := by
  induction pv with
  | nil => cases hm
  | cons kv rest ih =>
    intro acc
    show pid ∈ rest.foldl effectParamStep (effectParamStep acc kv)
    rcases List.mem_cons.mp hm with h1 | h2
    · subst h1
      apply effect_fold_mono
      rw [effectParamStep, ht, he]
      exact List.mem_append_right _ (List.mem_singleton.mpr rfl)
    · exact ih h2 _

theorem mem_effectColumnProps (logic : Json) (effect v2 : Json)
    (pv : List (String × Json)) (entry : String × Json) (pid : String)
    (h1 : getField logic "effect" = some effect)
    (h2 : getField effect "v2" = some v2)
    (h3 : getTruthyField v2 "parameterValues" = some (.obj pv))
    (hm : entry ∈ pv)
    (ht : getField entry.2 "type" = some (.str "column"))
    (he : extractPropertyFromColumn ((getField entry.2 "column").getD .null) = some pid) :
    pid ∈ effectColumnProps logic := by
  rw [effectColumnProps]
  simp only [h1, h2, h3]
  exact mem_effect_fold pv entry pid hm ht he []

theorem mem_effectColumnProps_extractAll (logic : Json) (p : String)
    (h0 : isObjectLike logic = true)
    (h1 : (getTruthyField logic "strategy").isSome = true)
    (hp : p ∈ effectColumnProps logic) :
    p ∈ extractAllProperties logic := by
  rw [extractAllProperties, if_pos h0]
  split
  · simp_all
  · exact mem_insertMany_right hp

/-- Claim C10: every property id contributed by a column-typed entry of
`effect.v2.parameterValues` is part of the used-property set of
`validateProperties` and, when undeclared, produces its `does not exist`
error like any tree-referenced property. -/
theorem effect_params_in_property_pass (logic : Json) (cfg : ObjectTypeConfig) (p : String)
    (h0 : isObjectLike logic = true)
    (h1 : (getTruthyField logic "strategy").isSome = true)
    (hp : p ∈ effectColumnProps logic) :
    p ∈ (validateProperties logic cfg).usedProperties
  ∧ ((cfg.properties.map (fun q => q.id)).contains p = false →
      propDoesNotExistMsg p cfg.id (cfg.properties.map (fun q => q.id))
        ∈ (validateProperties logic cfg).errors) := by
  have hmem : p ∈ extractAllProperties logic :=
    mem_effectColumnProps_extractAll logic p h0 h1 hp
  constructor
  · exact hmem
  · intro hnc
    rw [validateProperties_errors_eq]
    refine List.mem_map_of_mem _ (List.mem_filter.mpr ⟨hmem, ?_⟩)
    rw [hnc]
    rfl

/-- A rule logic with a `windowNode` strategy and a column-typed effect
parameter referencing `eff_prop`. -/
def logicEffectCol : Json :=
  Json.obj [("strategy", Json.obj [
    ("windowNode", Json.obj []),
    ("type", Json.str "windowNode")]),
   ("effect", Json.obj [("v2", Json.obj [("parameterValues", Json.obj [
      ("p1", Json.obj [("type", Json.str "column"),
                       ("column", Json.obj [("objectProperty", Json.obj [
                          ("propertyTypeId", Json.str "eff_prop")])])])])]),
     ("type", Json.str "v2")])]

/-- Witness for claim C10's theorem: `eff_prop`, referenced only by the
effect parameter, is in the used set and errors against a schema that does
not declare it. -/
theorem effect_params_in_property_pass_witness :
    "eff_prop" ∈ (validateProperties logicEffectCol schemaABC).usedProperties
  ∧ propDoesNotExistMsg "eff_prop" schemaABC.id
      (schemaABC.properties.map (fun q => q.id))
      ∈ (validateProperties logicEffectCol schemaABC).errors := by
  have hp : "eff_prop" ∈ effectColumnProps logicEffectCol := by
    rw [effectColumnProps]
    simp [logicEffectCol, getField, getTruthyField, jsTruthy, List.lookup,
          effectParamStep, extractPropertyFromColumn, isObjectLike]
  have h := effect_params_in_property_pass logicEffectCol schemaABC "eff_prop" rfl rfl hp
  exact ⟨h.1, h.2 rfl⟩

-- ===========================================================================
-- JSON.parse, modelled as a recursive-descent parser over the
-- whitespace-free JSON grammar (JSON.stringify emits no whitespace).  The
-- fuel argument only bounds nesting depth and is always called with enough.
-- ===========================================================================

def hexVal (c : Char) : Option Nat :=
  if '0' ≤ c ∧ c ≤ '9' then some (c.toNat - 48)
  else if 'a' ≤ c ∧ c ≤ 'f' then some (c.toNat - 87)
  else if 'A' ≤ c ∧ c ≤ 'F' then some (c.toNat - 55)
  else none

def takeDigits : List Char → List Char × List Char
  | [] => ([], [])
  | c :: cs =>
    if c.isDigit then
      let p := takeDigits cs
      (c :: p.1, p.2)
    else ([], c :: cs)

def digitsToNat (ds : List Char) : Nat :=
  ds.foldl (fun a c => 10 * a + (c.toNat - 48)) 0

def parseStrAux : Nat → List Char → Option (List Char × List Char)
  | 0, _ => none
  | _ + 1, [] => none
  | fuel + 1, c :: rest =>
    if c = '"' then some ([], rest)
    else if c = '\\' then
      match rest with
      | [] => none
      | e :: rest2 =>
        if e = '"' then (parseStrAux fuel rest2).map (fun p => ('"' :: p.1, p.2))
        else if e = '\\' then (parseStrAux fuel rest2).map (fun p => ('\\' :: p.1, p.2))
        else if e = '/' then (parseStrAux fuel rest2).map (fun p => ('/' :: p.1, p.2))
        else if e = 'n' then (parseStrAux fuel rest2).map (fun p => ('\n' :: p.1, p.2))
        else if e = 'r' then (parseStrAux fuel rest2).map (fun p => ('\r' :: p.1, p.2))
        else if e = 't' then (parseStrAux fuel rest2).map (fun p => ('\t' :: p.1, p.2))
        else if e = 'b' then (parseStrAux fuel rest2).map (fun p => (Char.ofNat 8 :: p.1, p.2))
        else if e = 'f' then (parseStrAux fuel rest2).map (fun p => (Char.ofNat 12 :: p.1, p.2))
        else if e = 'u' then
          match rest2 with
          | h1 :: h2 :: h3 :: h4 :: rest3 =>
            match hexVal h1, hexVal h2, hexVal h3, hexVal h4 with
            | some a, some b2, some c2, some d =>
              if ((a * 16 + b2) * 16 + c2) * 16 + d < 55296 then
                (parseStrAux fuel rest3).map
                  (fun p => (Char.ofNat (((a * 16 + b2) * 16 + c2) * 16 + d) :: p.1, p.2))
              else none
            | _, _, _, _ => none
          | _ => none
        else none
    else (parseStrAux fuel rest).map (fun p => (c :: p.1, p.2))

def parseStr (cs : List Char) : Option (String × List Char) :=
  (parseStrAux (cs.length + 1) cs).map (fun p => (String.mk p.1, p.2))

def expectLit : List Char → List Char → Option (List Char)
  | [], cs => some cs
  | l :: ls, c :: cs => if c = l then expectLit ls cs else none
  | _ :: _, [] => none

mutual

def parseVal : Nat → List Char → Option (Json × List Char)
  | 0, _ => none
  | _ + 1, [] => none
  | fuel + 1, c :: rest =>
    if c = 'n' then (expectLit ['u', 'l', 'l'] rest).map (fun r => (Json.null, r))
    else if c = 't' then (expectLit ['r', 'u', 'e'] rest).map (fun r => (Json.bool true, r))
    else if c = 'f' then (expectLit ['a', 'l', 's', 'e'] rest).map (fun r => (Json.bool false, r))
    else if c = '"' then (parseStr rest).map (fun p => (Json.str p.1, p.2))
    else if c = '[' then
      if rest.head? = some ']' then some (Json.arr [], rest.tail)
      else (parseElems fuel rest).map (fun p => (Json.arr p.1, p.2))
    else if c = lbrace then
      if rest.head? = some rbrace then some (Json.obj [], rest.tail)
      else (parseFields fuel rest).map (fun p => (Json.obj p.1, p.2))
    else if c = '-' then
      match takeDigits rest with
      | ([], _) => none
      | (ds, r) => some (Json.num (-(digitsToNat ds : Int)), r)
    else if c.isDigit then
      some (Json.num (digitsToNat (takeDigits (c :: rest)).1), (takeDigits (c :: rest)).2)
    else none

def parseElems : Nat → List Char → Option (List Json × List Char)
  | 0, _ => none
  | fuel + 1, cs =>
    match parseVal fuel cs with
    | none => none
    | some (v, r) =>
      match r with
      | c :: r2 =>
        if c = ',' then (parseElems fuel r2).map (fun p => (v :: p.1, p.2))
        else if c = ']' then some ([v], r2)
        else none
      | [] => none

def parseFields : Nat → List Char → Option (List (String × Json) × List Char)
  | 0, _ => none
  | fuel + 1, cs =>
    match cs with
    | c :: r0 =>
      if c = '"' then
        match parseStr r0 with
        | some (k, r1) =>
          match r1 with
          | c1 :: r2 =>
            if c1 = ':' then
              match parseVal fuel r2 with
              | some (v, r3) =>
                match r3 with
                | c3 :: r4 =>
                  if c3 = ',' then (parseFields fuel r4).map (fun p => ((k, v) :: p.1, p.2))
                  else if c3 = rbrace then some ([(k, v)], r4)
                  else none
                | [] => none
              | none => none
            else none
          | [] => none
        | none => none
      else none
    | [] => none

end

/-- `JSON.parse`, requiring the whole input to be consumed. -/
def parse (s : String) : Option Json :=
  match parseVal (s.data.length + 1) s.data with
  | some (v, []) => some v
  | _ => none

-- ===========================================================================
-- Compression module (src/v2/compression.ts).  The external lz-string codec
-- is a parameter: `enc` models `compressToEncodedURIComponent` and `dec`
-- models `decompressFromEncodedURIComponent` on non-empty input.
-- ===========================================================================

/-- `compress`: stringify, encode, and wrap as
`{ compressedValue, type: 'compressedValue' }`, itself stringified. -/
def compress (enc : String → String) (logic : Json) : String :=
  stringify (.obj [("compressedValue", .str (enc (stringify logic))),
                   ("type", .str "compressedValue")])

/-- Modelled from the spec: the boundary behavior of the external symmetric
lz-string codec — `decompressFromEncodedURIComponent` returns the empty
string on null/undefined input, null on the empty string, and otherwise the
symmetric decoder's output; a non-string input throws a TypeError. -/
def lzDecodeField (dec : String → Option String) : Option Json → Except String (Option String)
  | none => .ok (some "")
  | some .null => .ok (some "")
  | some (.str s) => if s = "" then .ok none else .ok (dec s)
  | some _ => .error "TypeError: input.replace is not a function"

/-- `decompress`: parse the outer wrapper (a JSON.parse failure is the
thrown SyntaxError, modelled by its message), decode `compressedValue`, throw
`Failed to decompress - invalid compressed value` on a falsy decode result,
then parse the decoded text. -/
def decompress (dec : String → Option String) (compressedWrapper : String) : Except String Json :=
  match parse compressedWrapper with
  | none => .error "Unexpected token in JSON"
  | some wrapper =>
    match lzDecodeField dec (getField wrapper "compressedValue") with
    | .error e => .error e
    | .ok json? =>
      match json? with
      | none => .error "Failed to decompress - invalid compressed value"
      | some s =>
        if s = "" then .error "Failed to decompress - invalid compressed value"
        else
          match parse s with
          | some v => .ok v
          | none => .error "Unexpected token in JSON"

structure CompressionStats where
  originalSize : Nat
  compressedSize : Nat
  ratio : ℚ
  deriving Repr, DecidableEq

/-- `getCompressionStats`: sizes are JavaScript string lengths (UTF-16 code
units, the `.length` the source reads), and the ratio is their exact
quotient. -/
def getCompressionStats (enc : String → String) (logic : Json) : CompressionStats :=
  let original := stringify logic
  let compressed := enc original
  { originalSize := jsLength original
  , compressedSize := jsLength compressed
  , ratio := (jsLength compressed : ℚ) / (jsLength original : ℚ) }


-- ===========================================================================
-- Round-trip of the printer and the parser.
-- ===========================================================================

/-- Heads that terminate a numeric literal: the empty input or a non-digit. -/
def noDigitHead : List Char → Bool
  | [] => true
  | c :: _ => !c.isDigit

theorem digitChar_toNat (d : Nat) (h : d < 10) : (digitChar d).toNat = 48 + d := by
  interval_cases d <;> decide

theorem digitChar_isDigit (d : Nat) (h : d < 10) : (digitChar d).isDigit = true := by
  interval_cases d <;> decide

theorem digitChar_notSpecial (d : Nat) (h : d < 10) :
    digitChar d ≠ 'n' ∧ digitChar d ≠ 't' ∧ digitChar d ≠ 'f' ∧ digitChar d ≠ '"' ∧
    digitChar d ≠ '[' ∧ digitChar d ≠ lbrace ∧ digitChar d ≠ '-' ∧
    digitChar d ≠ ']' ∧ digitChar d ≠ rbrace := by
  interval_cases d <;> decide

theorem digitsToNat_append_single (l : List Char) (c : Char) :
    digitsToNat (l ++ [c]) = 10 * digitsToNat l + (c.toNat - 48) := by
  simp [digitsToNat, List.foldl_append]

theorem printNatAux_spec : ∀ fuel n, n < fuel →
    (∀ c ∈ printNatAux fuel n, c.isDigit = true) ∧
    digitsToNat (printNatAux fuel n) = n ∧
    ∃ d t, printNatAux fuel n = digitChar d :: t ∧ d < 10 := by
  intro fuel
  induction fuel with
  | zero => intro n h; omega
  | succ f ih =>
    intro n h
    by_cases h10 : n < 10
    · refine ⟨?_, ?_, n, [], ?_, h10⟩
      · intro c hc
        simp [printNatAux, h10] at hc
        subst hc
        exact digitChar_isDigit n h10
      · simp [printNatAux, h10, digitsToNat]
        have := digitChar_toNat n h10
        omega
      · simp [printNatAux, h10]
    · have hpos : 0 < n := by omega
      have hdiv : n / 10 < n := Nat.div_lt_self hpos (by omega)
      have hlt : n / 10 < f := by omega
      obtain ⟨ihdig, ihval, d, t, hshape, hd10⟩ := ih (n / 10) hlt
      have heq : printNatAux (f + 1) n = printNatAux f (n / 10) ++ [digitChar (n % 10)] := by
        simp [printNatAux, h10]
      refine ⟨?_, ?_, d, t ++ [digitChar (n % 10)], ?_, hd10⟩
      · intro c hc
        rw [heq] at hc
        rcases List.mem_append.mp hc with hl | hr
        · exact ihdig c hl
        · simp at hr
          subst hr
          exact digitChar_isDigit _ (Nat.mod_lt n (by omega))
      · rw [heq, digitsToNat_append_single, ihval,
            digitChar_toNat _ (Nat.mod_lt n (by omega))]
        omega
      · rw [heq, hshape]
        simp

theorem printNat_spec (n : Nat) :
    (∀ c ∈ printNat n, c.isDigit = true) ∧
    digitsToNat (printNat n) = n ∧
    ∃ d t, printNat n = digitChar d :: t ∧ d < 10 :=
  printNatAux_spec (n + 1) n (by omega)

theorem takeDigits_append (ds rest : List Char)
    (hds : ∀ c ∈ ds, c.isDigit = true) (hrest : noDigitHead rest = true) :
    takeDigits (ds ++ rest) = (ds, rest) := by
  induction ds with
  | nil =>
    cases rest with
    | nil => rfl
    | cons c cs =>
      simp [noDigitHead] at hrest
      simp [takeDigits, hrest]
  | cons c cs ih =>
    have hc : c.isDigit = true := hds c (by simp)
    have ih2 := ih (fun x hx => hds x (by simp [hx]))
    simp [takeDigits, hc, ih2]

theorem hexVal_hexDigitChar (n : Nat) (h : n < 16) : hexVal (hexDigitChar n) = some n := by
  interval_cases n <;> decide

theorem escChar_len_pos (c : Char) : 1 ≤ (escChar c).length := by
  unfold escChar
  split_ifs <;> simp


theorem parseStrAux_roundtrip : ∀ (l : List Char) (fuel : Nat) (tail : List Char),
    (escList l).length < fuel →
    parseStrAux fuel (escList l ++ '"' :: tail) = some (l, tail) := by
  intro l
  induction l with
  | nil =>
    intro fuel tail h
    cases fuel with
    | zero => simp at h
    | succ f => simp [escList, parseStrAux]
  | cons c cs ih =>
    intro fuel tail h
    cases fuel with
    | zero => simp at h
    | succ f =>
    have hcs : (escList cs).length < f := by
      have h1 := escChar_len_pos c
      simp [escList, List.length_append] at h
      omega
    have ihf := ih f tail hcs
    by_cases h1 : c = '"'
    · subst h1
      simp [escList, escChar, parseStrAux, ihf]
    · by_cases h2 : c = '\\'
      · subst h2
        simp [escList, escChar, parseStrAux, ihf]
      · by_cases h3 : c = '\n'
        · subst h3
          simp [escList, escChar, parseStrAux, ihf]
        · by_cases h4 : c = '\r'
          · subst h4
            simp [escList, escChar, parseStrAux, ihf]
          · by_cases h5 : c = '\t'
            · subst h5
              simp [escList, escChar, parseStrAux, ihf]
            · by_cases h6 : c = Char.ofNat 8
              · subst h6
                simp [escList, escChar, parseStrAux, ihf]
              · by_cases h7 : c = Char.ofNat 12
                · subst h7
                  simp [escList, escChar, parseStrAux, ihf]
                · by_cases h8 : c.toNat < 32
                  · have hdiv : c.toNat / 16 < 16 := by omega
                    have hmod : c.toNat % 16 < 16 := Nat.mod_lt _ (by omega)
                    have hesc : escChar c =
                        ['\\', 'u', '0', '0', hexDigitChar (c.toNat / 16),
                         hexDigitChar (c.toNat % 16)] := by
                      simp [escChar, h1, h2, h3, h4, h5, h6, h7, h8]
                    have hcode :
                        ((0 * 16 + 0) * 16 + c.toNat / 16) * 16 + c.toNat % 16 = c.toNat := by
                      omega
                    have h0 : hexVal '0' = some 0 := by decide
                    have hcode2 : c.toNat / 16 * 16 + c.toNat % 16 = c.toNat := by omega
                    have h8b : c.toNat < 55296 := by omega
                    simp [escList, hesc, parseStrAux, h0, hexVal_hexDigitChar _ hdiv,
                          hexVal_hexDigitChar _ hmod, hcode2, h8b, ihf, Char.ofNat_toNat]
                  · have hesc : escChar c = [c] := by
                      simp [escChar, h1, h2, h3, h4, h5, h6, h7, h8]
                    simp [escList, hesc, parseStrAux, h1, h2, ihf]

theorem parseStr_roundtrip (k : String) (tail : List Char) :
    parseStr (escList k.data ++ '"' :: tail) = some (k, tail) := by
  unfold parseStr
  rw [parseStrAux_roundtrip k.data _ tail (by simp [List.length_append]; omega)]
  simp


theorem printChars_head (v : Json) :
    ∃ c t, printChars v = c :: t ∧ c ≠ ']' ∧ c ≠ rbrace := by
  cases v with
  | null => exact ⟨'n', _, rfl, by decide, by decide⟩
  | bool b => cases b with
    | true => exact ⟨'t', _, rfl, by decide, by decide⟩
    | false => exact ⟨'f', _, rfl, by decide, by decide⟩
  | num n =>
    by_cases hn : n < 0
    · exact ⟨'-', printNat n.natAbs, by simp [printChars, printInt, hn], by decide, by decide⟩
    · obtain ⟨_, _, d, t, hshape, hd10⟩ := printNat_spec n.natAbs
      have hns := digitChar_notSpecial d hd10
      exact ⟨digitChar d, t, by simp [printChars, printInt, hn, hshape],
             hns.2.2.2.2.2.2.2.1, hns.2.2.2.2.2.2.2.2⟩
  | str s => exact ⟨'"', _, rfl, by decide, by decide⟩
  | arr xs => exact ⟨'[', _, rfl, by decide, by decide⟩
  | obj fs => exact ⟨lbrace, _, rfl, by decide, by decide⟩

theorem printElems_head (x : Json) (xs : List Json) :
    ∃ c t, printElems (x :: xs) = c :: t ∧ c ≠ ']' ∧ c ≠ rbrace := by
  obtain ⟨c, t, hshape, h1, h2⟩ := printChars_head x
  cases xs with
  | nil => exact ⟨c, t, by simp [printElems, hshape], h1, h2⟩
  | cons y ys =>
    exact ⟨c, t ++ ',' :: printElems (y :: ys), by simp [printElems, hshape], h1, h2⟩

theorem printFields_head (p : String × Json) (fs : List (String × Json)) :
    ∃ t, printFields (p :: fs) = '"' :: t := by
  obtain ⟨k, v⟩ := p
  cases fs with
  | nil => exact ⟨_, rfl⟩
  | cons f fs' =>
    exact ⟨escList k.data ++ '"' :: ':' :: (printChars v ++ ',' :: printFields (f :: fs')),
           by simp [printFields]⟩


theorem parse_print_master : ∀ fuel : Nat,
    (∀ v rest, (printChars v).length < fuel → noDigitHead rest = true →
      parseVal fuel (printChars v ++ rest) = some (v, rest))
    ∧ (∀ x xs rest, (printElems (x :: xs)).length + 1 < fuel →
      parseElems fuel (printElems (x :: xs) ++ ']' :: rest) = some (x :: xs, rest))
    ∧ (∀ p fs rest, (printFields (p :: fs)).length + 1 < fuel →
      parseFields fuel (printFields (p :: fs) ++ rbrace :: rest) = some (p :: fs, rest)) := by
  intro fuel
  induction fuel with
  | zero =>
    exact ⟨fun v rest h _ => absurd h (by omega),
           fun x xs rest h => absurd h (by omega),
           fun p fs rest h => absurd h (by omega)⟩
  | succ f ih =>
    obtain ⟨ihP, ihQ, ihR⟩ := ih
    refine ⟨?_, ?_, ?_⟩
    · intro v rest hlen hrest
      cases v with
      | null => simp [printChars, parseVal, expectLit]
      | bool b => cases b <;> simp [printChars, parseVal, expectLit]
      | num n =>
        obtain ⟨hdig, hval, d, t, hshape, hd10⟩ := printNat_spec n.natAbs
        have hns := digitChar_notSpecial d hd10
        have htake : takeDigits (printNat n.natAbs ++ rest) = (printNat n.natAbs, rest) :=
          takeDigits_append _ _ hdig hrest
        rw [hshape] at htake hval
        simp only [List.cons_append] at htake
        by_cases hn : n < 0
        · have h1 : printChars (Json.num n) ++ rest = '-' :: digitChar d :: (t ++ rest) := by
            simp [printChars, printInt, hn, hshape]
          rw [h1]
          simp [parseVal, htake, hval, (by decide : ('-' : Char) ≠ lbrace),
                abs_of_nonpos (show n ≤ 0 by omega), neg_neg]
          try omega
        · have h1 : printChars (Json.num n) ++ rest = digitChar d :: (t ++ rest) := by
            simp [printChars, printInt, hn, hshape]
          rw [h1]
          simp [parseVal, hns.1, hns.2.1, hns.2.2.1, hns.2.2.2.1, hns.2.2.2.2.1,
                hns.2.2.2.2.2.1, hns.2.2.2.2.2.2.1, digitChar_isDigit d hd10, htake, hval,
                abs_of_nonneg (show (0:Int) ≤ n by omega)]
          try omega
      | str s =>
        have h1 : printChars (Json.str s) ++ rest = '"' :: (escList s.data ++ '"' :: rest) := by
          simp [printChars]
        rw [h1]
        simp [parseVal, parseStr_roundtrip]
      | arr xs =>
        cases xs with
        | nil =>
          have h1 : printChars (Json.arr []) ++ rest = '[' :: ']' :: rest := by
            simp [printChars, printElems]
          rw [h1]
          simp [parseVal]
        | cons x xs' =>
          obtain ⟨c, t, hshape, hc1, _⟩ := printElems_head x xs'
          have hq := ihQ x xs' rest (by simp [printChars, List.length_append] at hlen; omega)
          have h1 : printChars (Json.arr (x :: xs')) ++ rest
              = '[' :: (printElems (x :: xs') ++ ']' :: rest) := by
            simp [printChars]
          rw [h1]
          rw [hshape] at hq ⊢
          simp only [List.cons_append] at hq ⊢
          simp [parseVal, hc1, hq]
      | obj fs =>
        cases fs with
        | nil =>
          have h1 : printChars (Json.obj []) ++ rest = lbrace :: rbrace :: rest := by
            simp [printChars, printFields]
          rw [h1]
          simp [parseVal, (by decide : lbrace ≠ 'n'), (by decide : lbrace ≠ 't'),
                (by decide : lbrace ≠ 'f'), (by decide : lbrace ≠ '"'),
                (by decide : lbrace ≠ '[')]
        | cons p fs' =>
          obtain ⟨t, hshape⟩ := printFields_head p fs'
          have hr := ihR p fs' rest (by simp [printChars, List.length_append] at hlen; omega)
          have h1 : printChars (Json.obj (p :: fs')) ++ rest
              = lbrace :: (printFields (p :: fs') ++ rbrace :: rest) := by
            simp [printChars]
          rw [h1]
          rw [hshape] at hr ⊢
          simp only [List.cons_append] at hr ⊢
          simp [parseVal, hr, (by decide : lbrace ≠ 'n'), (by decide : lbrace ≠ 't'),
                (by decide : lbrace ≠ 'f'), (by decide : lbrace ≠ '"'),
                (by decide : lbrace ≠ '['), (by decide : ('"':Char) ≠ rbrace)]
    · intro x xs rest hlen
      cases xs with
      | nil =>
        have hp := ihP x (']' :: rest) (by simp [printElems] at hlen; omega)
          (by simp [noDigitHead])
        have h1 : printElems [x] ++ ']' :: rest = printChars x ++ ']' :: rest := by
          simp [printElems]
        rw [h1]
        simp [parseElems, hp]
      | cons y ys =>
        have hlen0 : (printElems (x :: y :: ys)).length
            = (printChars x).length + 1 + (printElems (y :: ys)).length := by
          simp [printElems, List.length_append]
          omega
        have hp := ihP x (',' :: (printElems (y :: ys) ++ ']' :: rest)) (by omega)
          (by simp [noDigitHead])
        have hq := ihQ y ys rest (by omega)
        have h1 : printElems (x :: y :: ys) ++ ']' :: rest
            = printChars x ++ ',' :: (printElems (y :: ys) ++ ']' :: rest) := by
          simp [printElems]
        rw [h1]
        simp [parseElems, hp, hq]
    · intro p fs rest hlen
      obtain ⟨k, v⟩ := p
      cases fs with
      | nil =>
        have hlen0 : (printFields [(k, v)]).length
            = 1 + (escList k.data).length + 2 + (printChars v).length := by
          simp [printFields, List.length_append]
          omega
        have hp := ihP v (rbrace :: rest) (by omega) (by simp [noDigitHead]; decide)
        have hstr := parseStr_roundtrip k (':' :: (printChars v ++ rbrace :: rest))
        have h1 : printFields [(k, v)] ++ rbrace :: rest
            = '"' :: (escList k.data ++ '"' :: (':' :: (printChars v ++ rbrace :: rest))) := by
          simp [printFields]
        rw [h1]
        simp [parseFields, hstr, hp, (by decide : rbrace ≠ ',')]
      | cons q fs' =>
        have hlen0 : (printFields ((k, v) :: q :: fs')).length
            = 1 + (escList k.data).length + 2 + (printChars v).length + 1
              + (printFields (q :: fs')).length := by
          simp [printFields, List.length_append]
          omega
        have hp := ihP v (',' :: (printFields (q :: fs') ++ rbrace :: rest)) (by omega)
          (by simp [noDigitHead])
        have hr := ihR q fs' rest (by omega)
        have hstr := parseStr_roundtrip k
          (':' :: (printChars v ++ ',' :: (printFields (q :: fs') ++ rbrace :: rest)))
        have h1 : printFields ((k, v) :: q :: fs') ++ rbrace :: rest
            = '"' :: (escList k.data ++ '"' ::
                (':' :: (printChars v ++ ',' :: (printFields (q :: fs') ++ rbrace :: rest)))) := by
          simp [printFields]
        rw [h1]
        simp [parseFields, hstr, hp, hr]

/-- `JSON.parse` inverts `JSON.stringify`: the heart of the round-trip law. -/
theorem parse_stringify (v : Json) : parse (stringify v) = some v := by
  have hm := (parse_print_master ((printChars v).length + 1)).1 v [] (by omega)
    (by simp [noDigitHead])
  simp only [List.append_nil] at hm
  unfold parse stringify
  simp [hm]


theorem stringify_ne_empty (v : Json) : stringify v ≠ "" := by
  obtain ⟨c, t, hshape, _, _⟩ := printChars_head v
  unfold stringify
  rw [hshape]
  intro h
  have hd := congrArg String.data h
  simp at hd

/-- A concrete symmetric codec used as a witness: prefix an `E`. -/
def encE (s : String) : String := String.mk ('E' :: s.data)

def decE (s : String) : Option String :=
  match s.data with
  | 'E' :: rest => some (String.mk rest)
  | _ => none

theorem decE_encE : ∀ s, decE (encE s) = some s := by
  intro s
  rfl

theorem encE_ne_empty : ∀ s : String, s ≠ "" → encE s ≠ "" := by
  intro s _ h
  have hd := congrArg String.data h
  simp [encE] at hd

/-- Claim C1: the round-trip law — for every JSON value `v` (objects,
arrays, strings, numbers, booleans, null, arbitrarily nested, including the
empty containers and explicit nulls), `decompress (compress v)` returns
exactly `v`.  The external lz-string codec is any pair `enc`/`dec` such
that decoding inverts encoding and a nonempty string encodes to a nonempty
string. -/
theorem compress_decompress_roundtrip
    (enc : String → String) (dec : String → Option String)
    (hsym : ∀ s, dec (enc s) = some s)
    (hne : ∀ s, s ≠ "" → enc s ≠ "")
    (v : Json) :
    decompress dec (compress enc v) = .ok v := by
  have hs : stringify v ≠ "" := stringify_ne_empty v
  have henc : enc (stringify v) ≠ "" := hne _ hs
  unfold decompress compress
  rw [parse_stringify]
  simp [getField, List.lookup, lzDecodeField, henc, hsym, hs, parse_stringify]

theorem compress_decompress_roundtrip_witness :
    decompress decE (compress encE (Json.obj [("key", Json.str "value")]))
      = .ok (Json.obj [("key", Json.str "value")]) :=
  compress_decompress_roundtrip encE decE decE_encE encE_ne_empty _


/-- Claim C7 (amended): every failure path of `decompress` throws — outer
text that is not valid JSON, an absent `compressedValue`, a decode that
fails, and a decode that yields garbage all produce an error, never a
silent null.  The absent-field, failed-decode and empty-decode cases throw
`Failed to decompress - invalid compressed value`, which contains the
phrase `Failed to decompress`; but a decode that yields nonempty garbage
that is not valid JSON throws the JSON.parse SyntaxError, whose message
does not contain that phrase. -/
theorem decompress_failure_modes (dec : String → Option String) (w : String) :
    (parse w = none → decompress dec w = .error "Unexpected token in JSON")
    ∧ (∀ wrapper, parse w = some wrapper →
        getField wrapper "compressedValue" = none →
        decompress dec w = .error "Failed to decompress - invalid compressed value")
    ∧ (∀ wrapper payload, parse w = some wrapper →
        getField wrapper "compressedValue" = some (Json.str payload) → payload ≠ "" →
        dec payload = none →
        decompress dec w = .error "Failed to decompress - invalid compressed value")
    ∧ (∀ wrapper payload, parse w = some wrapper →
        getField wrapper "compressedValue" = some (Json.str payload) → payload ≠ "" →
        dec payload = some "" →
        decompress dec w = .error "Failed to decompress - invalid compressed value")
    ∧ (∀ wrapper payload g, parse w = some wrapper →
        getField wrapper "compressedValue" = some (Json.str payload) → payload ≠ "" →
        dec payload = some g → g ≠ "" → parse g = none →
        decompress dec w = .error "Unexpected token in JSON")
    ∧ strContains "Failed to decompress - invalid compressed value" "Failed to decompress"
        = true
    ∧ strContains "Unexpected token in JSON" "Failed to decompress" = false := by
  refine ⟨?_, ?_, ?_, ?_, ?_, by decide, by decide⟩
  · intro h
    simp [decompress, h]
  · intro wrapper h1 h2
    simp [decompress, h1, h2, lzDecodeField]
  · intro wrapper payload h1 h2 h3 h4
    simp [decompress, h1, h2, h3, h4, lzDecodeField]
  · intro wrapper payload h1 h2 h3 h4
    simp [decompress, h1, h2, h3, h4, lzDecodeField]
  · intro wrapper payload g h1 h2 h3 h4 h5 h6
    simp [decompress, h1, h2, h3, h4, h5, h6, lzDecodeField]

theorem decompress_failure_modes_witness :
    decompress (fun _ => none) (compress encE (Json.num 1))
      = .error "Failed to decompress - invalid compressed value" :=
  (decompress_failure_modes (fun _ => none) (compress encE (Json.num 1))).2.2.1
    (Json.obj [("compressedValue", Json.str "E1"), ("type", Json.str "compressedValue")])
    "E1" (by rfl) (by rfl) (by decide) rfl

/-- Claim C7 counterexample: a codec whose decode returns nonempty garbage
makes `decompress` throw the JSON.parse error `Unexpected token in JSON`,
which does not include the phrase `Failed to decompress`. -/
theorem decompress_garbage_no_phrase :
    decompress (fun _ => some "!!!") (compress encE (Json.num 1))
      = .error "Unexpected token in JSON"
    ∧ strContains "Unexpected token in JSON" "Failed to decompress" = false := by
  exact ⟨rfl, by decide⟩

theorem ascii_listLen (l : List Char) (h : ∀ c ∈ l, c.toNat < 128) :
    (l.map (fun c => if c.toNat < 65536 then 1 else 2)).sum
      = (l.map (fun c =>
          if c.toNat < 128 then 1
          else if c.toNat < 2048 then 2
          else if c.toNat < 65536 then 3
          else 4)).sum := by
  induction l with
  | nil => rfl
  | cons c cs ih =>
    have hc : c.toNat < 128 := h c (by simp)
    simp [ih (fun x hx => h x (by simp [hx])), hc, (by omega : c.toNat < 65536)]

/-- Claim C8 (amended): `getCompressionStats` reports the JavaScript string
lengths (UTF-16 code units) of the serialized logic and of its encoding —
which equals the byte length exactly when the serialization is ASCII — and
`ratio` is exactly `compressedSize / originalSize`. -/
theorem getCompressionStats_sizes (enc : String → String) (v : Json) :
    (getCompressionStats enc v).originalSize = jsLength (stringify v)
    ∧ (getCompressionStats enc v).compressedSize = jsLength (enc (stringify v))
    ∧ (getCompressionStats enc v).ratio
        = ((getCompressionStats enc v).compressedSize : ℚ)
          / ((getCompressionStats enc v).originalSize : ℚ)
    ∧ ((∀ c ∈ (stringify v).data, c.toNat < 128) →
        (getCompressionStats enc v).originalSize = utf8ByteLen (stringify v)) := by
  refine ⟨rfl, rfl, rfl, ?_⟩
  intro hascii
  show jsLength (stringify v) = utf8ByteLen (stringify v)
  exact ascii_listLen (stringify v).data hascii

theorem getCompressionStats_sizes_witness :
    (getCompressionStats encE (Json.obj [("test", Json.num 123)])).originalSize
      = utf8ByteLen (stringify (Json.obj [("test", Json.num 123)])) :=
  (getCompressionStats_sizes encE (Json.obj [("test", Json.num 123)])).2.2.2 (by decide)

/-- Claim C8 counterexample: the serialization of the string value `é` has
3 UTF-16 code units — the `originalSize` the code reports — but 4 UTF-8
bytes, so `originalSize` is not the byte length of the canonical JSON
serialization. -/
theorem getCompressionStats_not_byte_length :
    (getCompressionStats (fun s => s) (Json.str "é")).originalSize = 3
    ∧ utf8ByteLen (stringify (Json.str "é")) = 4 := by
  exact ⟨rfl, rfl⟩

end RulesCli
